import Mathlib

/-
Verification development for the consul-kv-monitor repository.

The pure data layer (record validator, snapshot builder, keyed snapshot)
is embedded from src/ConsulResponseValidator.js, the Factory function
buildConsulKvData and src/ConsulKvData.js.  The watch orchestrator
(src/ConsulKvData.js, class ConsulKvMonitor) is embedded further below as
an explicit state machine over a runtime state that tracks the monitor
fields together with the armed timers of the event loop.
-/

namespace ConsulKv

/-- Decoded JSON values are opaque to the repository: JSON.parse is an
external collaborator.  We keep an abstract representation and let every
theorem quantify over an arbitrary parse function String to Option JsonValue. -/
abbrev JsonValue := String

/-- One element of a raw Consul KV response batch.  lodash isObject is
modelled by the constructor; presence of each of the six checked fields
(Key, Value, CreateIndex, Flags, LockIndex, ModifyIndex) is modelled by a
Boolean, and the Key and Value contents by strings (only read on records
whose presence flags are set). -/
inductive RawRecord where
  | nonObject (tag : Nat)
  | obj (hasKey hasValue hasCreateIndex hasFlags hasLockIndex hasModifyIndex : Bool)
      (keyField valueField : String)
deriving DecidableEq

/-- The overall value received from consul.kv: either not an array
(lodash isArray fails; the tag distinguishes concrete non-array values)
or an array of elements. -/
inductive RawInput where
  | notArray (tag : Nat)
  | arr (records : List RawRecord)
deriving DecidableEq

/-- Payload attached to an InvalidDataError by the source (the second
constructor argument of the error classes). -/
inductive ErrPayload where
  | recordsP (input : RawInput)
  | recordP (record : RawRecord)
  | keyValueP (key val : String)
deriving DecidableEq

/-- Error taxonomy of src/Error/index.js.  WatchError stores the message
of the wrapped underlying error. -/
inductive KvError where
  | watchError (msg : String)
  | watchTimeoutError (msg : String)
  | alreadyInitializedError (msg : String)
  | invalidDataError (msg : String) (payload : ErrPayload)
deriving DecidableEq

/-- Validity check of one record, from ConsulResponseValidator.js lines
35 to 43: the record must be an object and have all six fields. -/
def isValidKvRecord : RawRecord → Bool
  | .nonObject _ => false
  | .obj hk hv hc hf hl hm _ _ => hk && hv && hc && hf && hl && hm

/-- The per-record diagnostic pushed for an invalid element, carrying the
offending element. -/
def invalidRecordError (r : RawRecord) : KvError :=
  .invalidDataError "Invalid format of record data received from consul KV" (.recordP r)

/-- The diagnostic pushed when the whole payload is not an array. -/
def invalidPayloadError (input : RawInput) : KvError :=
  .invalidDataError "Invalid format of data received from consul KV" (.recordsP input)

/-- Result shape of filterValidKvRecords. -/
structure FilterResult where
  validRecords : List RawRecord
  errors : List KvError
deriving DecidableEq

/-- One iteration of the records.forEach loop in filterValidKvRecords. -/
def filterStep (acc : FilterResult) (r : RawRecord) : FilterResult :=
  if isValidKvRecord r then { acc with validRecords := acc.validRecords ++ [r] }
  else { acc with errors := acc.errors ++ [invalidRecordError r] }

/-- ConsulResponseValidator.filterValidKvRecords: a non-array input yields
no valid records and exactly one payload diagnostic; an empty array
returns early with both lists empty; otherwise the forEach loop sorts
each element into validRecords or errors. -/
def filterValidKvRecords : RawInput → FilterResult
  | .notArray t => ⟨[], [invalidPayloadError (.notArray t)]⟩
  | .arr [] => ⟨[], []⟩
  | .arr xs => xs.foldl filterStep ⟨[], []⟩

/-- Accessor for record.Key (only read on valid records, which are
objects). -/
def recordKey : RawRecord → String
  | .nonObject _ => ""
  | .obj _ _ _ _ _ _ k _ => k

/-- Accessor for record.Value (only read on valid records). -/
def recordValue : RawRecord → String
  | .nonObject _ => ""
  | .obj _ _ _ _ _ _ _ v => v

/-- The body object built per record by buildConsulKvData: metaData is
the whole raw record, value is either the raw string (json flag false)
or the decoded JSON value (json flag true). -/
structure KvBody where
  metaData : RawRecord
  value : String ⊕ JsonValue
deriving DecidableEq

/-- The keyed snapshot entity of src/ConsulKvData.js.  kvMap is the
JavaScript Map built from the entry list: insertion order is kept, a
later entry with an existing key overwrites the stored value in place. -/
structure ConsulKvData where
  kvMap : List (String × KvBody)
deriving DecidableEq

/-- One Map.set step of the JavaScript Map constructor: update in place
when the key exists, append otherwise. -/
def jsMapSet (m : List (String × KvBody)) (k : String) (v : KvBody) :
    List (String × KvBody) :=
  if m.any (fun p => p.1 = k) then m.map (fun p => if p.1 = k then (k, v) else p)
  else m ++ [(k, v)]

/-- new Map(records): fold Map.set over the entry list. -/
def ConsulKvData.ofList (records : List (String × KvBody)) : ConsulKvData :=
  ⟨records.foldl (fun m p => jsMapSet m p.1 p.2) []⟩

/-- ConsulKvData.hasKey. -/
def ConsulKvData.hasKey (d : ConsulKvData) (k : String) : Bool :=
  d.kvMap.any (fun p => p.1 = k)

/-- ConsulKvData.getKeys. -/
def ConsulKvData.getKeys (d : ConsulKvData) : List String :=
  d.kvMap.map (fun p => p.1)

/-- ConsulKvData.getValue: undefined (none) when the key is absent. -/
def ConsulKvData.getValue (d : ConsulKvData) (k : String) : Option (String ⊕ JsonValue) :=
  (d.kvMap.find? (fun p => p.1 = k)).map (fun p => p.2.value)

/-- ConsulKvData.getMetadata: undefined (none) when the key is absent. -/
def ConsulKvData.getMetadata (d : ConsulKvData) (k : String) : Option RawRecord :=
  (d.kvMap.find? (fun p => p.1 = k)).map (fun p => p.2.metaData)

/-- The decode diagnostic of buildConsulKvData, carrying the key and the
raw value of the record that failed JSON.parse. -/
def invalidJsonError (r : RawRecord) : KvError :=
  .invalidDataError
    "Invalid JSON of Value field of KV is received from consul, record will be skipped"
    (.keyValueP (recordKey r) (recordValue r))

/-- One iteration of the validRecords.forEach loop in buildConsulKvData.
The accumulator carries the entry list under construction and the error
list (the validator errors, onto which decode errors are pushed). -/
def buildStep (parse : String → Option JsonValue) (json : Bool)
    (acc : List (String × KvBody) × List KvError) (r : RawRecord) :
    List (String × KvBody) × List KvError :=
  if json then
    match parse (recordValue r) with
    | some j => (acc.1 ++ [(recordKey r, ⟨r, Sum.inr j⟩)], acc.2)
    | none => (acc.1, acc.2 ++ [invalidJsonError r])
  else (acc.1 ++ [(recordKey r, ⟨r, Sum.inl (recordValue r)⟩)], acc.2)

/-- Result shape of buildConsulKvData. -/
structure BuildResult where
  consulKvData : ConsulKvData
  errors : List KvError
deriving DecidableEq

/-- Factory buildConsulKvData (src/unnamed Factory file): undefined data
gives an empty snapshot and no errors; otherwise validate, then build the
entry list, pushing one decode diagnostic per record whose Value fails
JSON.parse when the json flag is set (the record is skipped entirely),
and wrap the entries in a snapshot. -/
def buildConsulKvData (parse : String → Option JsonValue) (data : Option RawInput)
    (json : Bool) : BuildResult :=
  match data with
  | none => ⟨ConsulKvData.ofList [], []⟩
  | some d =>
    let fr := filterValidKvRecords d
    let acc := fr.validRecords.foldl (buildStep parse json) ([], fr.errors)
    ⟨ConsulKvData.ofList acc.1, acc.2⟩

/-- The entry list produced by the build loop on a given valid-record
list: with the json flag, only records whose Value parses contribute an
entry holding the decoded value; without it, every record contributes the
raw string. -/
def builtEntries (parse : String → Option JsonValue) (json : Bool)
    (rs : List RawRecord) : List (String × KvBody) :=
  if json then
    rs.filterMap (fun r =>
      (parse (recordValue r)).map (fun j => (recordKey r, (⟨r, Sum.inr j⟩ : KvBody))))
  else rs.map (fun r => (recordKey r, ⟨r, Sum.inl (recordValue r)⟩))

theorem foldl_filterStep (xs : List RawRecord) (acc : FilterResult) :
    xs.foldl filterStep acc =
      ⟨acc.validRecords ++ xs.filter (fun r => isValidKvRecord r),
        acc.errors ++ (xs.filter (fun r => ! isValidKvRecord r)).map invalidRecordError⟩ := by
  induction xs generalizing acc with
  | nil => simp
  | cons x xs ih =>
    rw [List.foldl_cons, ih]
    by_cases h : isValidKvRecord x <;>
      simp [filterStep, h, List.filter_cons]

theorem filterValidKvRecords_arr (xs : List RawRecord) :
    filterValidKvRecords (.arr xs) =
      ⟨xs.filter (fun r => isValidKvRecord r),
        (xs.filter (fun r => ! isValidKvRecord r)).map invalidRecordError⟩ := by
  match xs with
  | [] => rfl
  | x :: xs =>
    show (x :: xs).foldl filterStep ⟨[], []⟩ = _
    rw [foldl_filterStep]
    simp

theorem foldl_buildStep (parse : String → Option JsonValue) (json : Bool)
    (rs : List RawRecord) (acc : List (String × KvBody) × List KvError) :
    rs.foldl (buildStep parse json) acc =
      (acc.1 ++ builtEntries parse json rs,
        acc.2 ++ (if json then
          (rs.filter (fun r => parse (recordValue r) = none)).map invalidJsonError
        else [])) := by
  induction rs generalizing acc with
  | nil =>
    simp only [List.foldl_nil, builtEntries, List.filterMap_nil, List.map_nil,
      List.filter_nil]
    split <;> simp
  | cons r rs ih =>
    rw [List.foldl_cons, ih]
    by_cases hj : json
    · subst hj
      match hp : parse (recordValue r) with
      | some j => simp [buildStep, builtEntries, hp, List.filter_cons]
      | none => simp [buildStep, builtEntries, hp, List.filter_cons]
    · simp only [eq_false_of_ne_true hj]
      simp [buildStep, builtEntries, eq_false_of_ne_true hj]

theorem buildConsulKvData_some (parse : String → Option JsonValue) (d : RawInput)
    (json : Bool) :
    buildConsulKvData parse (some d) json =
      ⟨ConsulKvData.ofList (builtEntries parse json (filterValidKvRecords d).validRecords),
        (filterValidKvRecords d).errors ++ (if json then
          ((filterValidKvRecords d).validRecords.filter
            (fun r => parse (recordValue r) = none)).map invalidJsonError
        else [])⟩ := by
  show BuildResult.mk _ _ = _
  rw [foldl_buildStep]
  simp

theorem map_fst_replace (m : List (String × KvBody)) (k : String) (v : KvBody) :
    (m.map (fun p => if p.1 = k then (k, v) else p)).map (fun p => p.1) =
      m.map (fun p => p.1) := by
  induction m with
  | nil => rfl
  | cons p m ih => by_cases h : p.1 = k <;> simp [h, ih]

theorem keys_jsMapSet (m : List (String × KvBody)) (k : String) (v : KvBody) :
    (jsMapSet m k v).map (fun p => p.1) =
      if m.any (fun p => p.1 = k) then m.map (fun p => p.1)
      else m.map (fun p => p.1) ++ [k] := by
  unfold jsMapSet
  split
  · rw [map_fst_replace]
  · simp

theorem nodup_keys_foldl_jsMapSet (l : List (String × KvBody))
    (m : List (String × KvBody)) (hm : (m.map (fun p => p.1)).Nodup) :
    ((l.foldl (fun m p => jsMapSet m p.1 p.2) m).map (fun p => p.1)).Nodup := by
  induction l generalizing m with
  | nil => exact hm
  | cons q l ih =>
    rw [List.foldl_cons]
    refine ih _ ?_
    rw [keys_jsMapSet]
    split
    · exact hm
    · next h =>
      rw [List.nodup_append]
      refine ⟨hm, List.nodup_singleton _, ?_⟩
      intro a ha hb
      rw [List.mem_singleton] at hb
      subst hb
      rw [List.any_eq_true] at h
      rw [List.mem_map] at ha
      obtain ⟨p, hp, hpa⟩ := ha
      exact h ⟨p, hp, by simp [hpa]⟩

theorem nodup_keys_ofList (l : List (String × KvBody)) :
    ((ConsulKvData.ofList l).kvMap.map (fun p => p.1)).Nodup :=
  nodup_keys_foldl_jsMapSet l [] List.nodup_nil

theorem ofList_concat (l : List (String × KvBody)) (q : String × KvBody) :
    (ConsulKvData.ofList (l ++ [q])).kvMap =
      jsMapSet (ConsulKvData.ofList l).kvMap q.1 q.2 := by
  show (l ++ [q]).foldl _ [] = _
  rw [List.foldl_append]
  rfl

theorem mem_keys_jsMapSet (m : List (String × KvBody)) (k : String) (v : KvBody)
    (k2 : String) :
    k2 ∈ (jsMapSet m k v).map (fun p => p.1) ↔
      k2 ∈ m.map (fun p => p.1) ∨ k2 = k := by
  rw [keys_jsMapSet]
  split
  · next h =>
    constructor
    · exact fun hm => Or.inl hm
    · rintro (hm | rfl)
      · exact hm
      · rw [List.any_eq_true] at h
        obtain ⟨p, hp, hpk⟩ := h
        rw [List.mem_map]
        exact ⟨p, hp, by simpa using hpk⟩
  · simp

theorem mem_keys_ofList (l : List (String × KvBody)) (k : String) :
    k ∈ (ConsulKvData.ofList l).kvMap.map (fun p => p.1) ↔
      k ∈ l.map (fun p => p.1) := by
  induction l using List.reverseRecOn with
  | nil => rfl
  | append_singleton l q ih =>
    rw [ofList_concat, mem_keys_jsMapSet, ih]
    simp [or_comm]

theorem find?_replace_self (m : List (String × KvBody)) (k : String) (v : KvBody)
    (h : m.any (fun p => p.1 = k) = true) :
    (m.map (fun p => if p.1 = k then (k, v) else p)).find? (fun p => p.1 = k) =
      some (k, v) := by
  induction m with
  | nil => simp at h
  | cons p m ih =>
    by_cases hp : p.1 = k
    · rw [List.map_cons, if_pos hp]
      exact List.find?_cons_of_pos _ (by simp)
    · have h2 : m.any (fun p => p.1 = k) = true := by
        rcases List.any_eq_true.mp h with ⟨q, hq, hqk⟩
        rcases List.mem_cons.mp hq with rfl | hq2
        · exact absurd (by simpa using hqk) hp
        · exact List.any_eq_true.mpr ⟨q, hq2, hqk⟩
      rw [List.map_cons, if_neg hp]
      rw [List.find?_cons_of_neg _ (by simpa using hp)]
      exact ih h2

theorem find?_replace_other (m : List (String × KvBody)) (k : String) (v : KvBody)
    (k2 : String) (h : k2 ≠ k) :
    (m.map (fun p => if p.1 = k then (k, v) else p)).find? (fun p => p.1 = k2) =
      m.find? (fun p => p.1 = k2) := by
  have hk2 : k ≠ k2 := Ne.symm h
  induction m with
  | nil => rfl
  | cons p m ih =>
    by_cases hp : p.1 = k
    · have hp2 : p.1 ≠ k2 := hp ▸ hk2
      rw [List.map_cons, if_pos hp]
      rw [List.find?_cons_of_neg _ (by simpa using hk2)]
      rw [List.find?_cons_of_neg _ (by simpa using hp2)]
      exact ih
    · rw [List.map_cons, if_neg hp]
      by_cases hp2 : p.1 = k2
      · rw [List.find?_cons_of_pos _ (by simpa using hp2),
          List.find?_cons_of_pos _ (by simpa using hp2)]
      · rw [List.find?_cons_of_neg _ (by simpa using hp2),
          List.find?_cons_of_neg _ (by simpa using hp2)]
        exact ih

theorem find?_jsMapSet (m : List (String × KvBody)) (k : String) (v : KvBody)
    (k2 : String) :
    (jsMapSet m k v).find? (fun p => p.1 = k2) =
      if k2 = k then some (k, v) else m.find? (fun p => p.1 = k2) := by
  by_cases hk : k2 = k
  · subst hk
    rw [if_pos rfl]
    unfold jsMapSet
    split
    · next h => exact find?_replace_self m k2 v h
    · next h =>
      have hn : m.find? (fun p => p.1 = k2) = none := by
        rw [List.find?_eq_none]
        intro x hx hpx
        exact h (List.any_eq_true.mpr ⟨x, hx, hpx⟩)
      rw [List.find?_append, hn]
      simp
  · rw [if_neg hk]
    unfold jsMapSet
    split
    · exact find?_replace_other m k v k2 hk
    · have hn : List.find? (fun p => p.1 = k2) [(k, v)] = none := by
        simp [Ne.symm hk]
      rw [List.find?_append, hn]
      simp

theorem find?_ofList (l : List (String × KvBody)) (k : String) :
    (ConsulKvData.ofList l).kvMap.find? (fun p => p.1 = k) =
      (l.filter (fun p => p.1 = k)).getLast? := by
  induction l using List.reverseRecOn with
  | nil => rfl
  | append_singleton l q ih =>
    rw [ofList_concat, find?_jsMapSet, List.filter_append]
    by_cases hq : k = q.1
    · rw [if_pos hq]
      have hf : List.filter (fun p => p.1 = k) [q] = [q] := by simp [hq.symm]
      rw [hf, List.getLast?_concat]
    · rw [if_neg hq]
      have hf : List.filter (fun p => p.1 = k) [q] = [] := by
        simp only [List.filter_cons, List.filter_nil]
        rw [if_neg (by simpa using fun h => hq h.symm)]
      rw [hf, List.append_nil, ih]

theorem length_jsMapSet (m : List (String × KvBody)) (k : String) (v : KvBody) :
    (jsMapSet m k v).length =
      if m.any (fun p => p.1 = k) then m.length else m.length + 1 := by
  unfold jsMapSet
  split <;> simp

theorem length_ofList_le (l : List (String × KvBody)) :
    (ConsulKvData.ofList l).kvMap.length ≤ l.length := by
  induction l using List.reverseRecOn with
  | nil => exact Nat.le_refl 0
  | append_singleton l q ih =>
    rw [ofList_concat, length_jsMapSet, List.length_append]
    split <;> simp <;> omega

theorem length_ofList_lt (l : List (String × KvBody)) (k : String)
    (h : 2 ≤ (l.filter (fun p => p.1 = k)).length) :
    (ConsulKvData.ofList l).kvMap.length < l.length := by
  induction l using List.reverseRecOn with
  | nil => simp at h
  | append_singleton l q ih =>
    rw [ofList_concat, length_jsMapSet, List.length_append]
    by_cases hq : q.1 = k
    · have hq1 : List.filter (fun p => p.1 = k) [q] = [q] := by simp [hq]
      rw [List.filter_append, hq1, List.length_append] at h
      have hf : 1 ≤ (l.filter (fun p => p.1 = k)).length := by
        simp at h ⊢; omega
      have hne : l.filter (fun p => p.1 = k) ≠ [] := by
        intro he
        rw [he] at hf
        simp at hf
      obtain ⟨x, hx⟩ := List.exists_mem_of_ne_nil _ hne
      have hx2 := List.mem_filter.mp hx
      have hany : (ConsulKvData.ofList l).kvMap.any (fun p => p.1 = q.1) = true := by
        have hmem : q.1 ∈ (ConsulKvData.ofList l).kvMap.map (fun p => p.1) := by
          rw [mem_keys_ofList]
          rw [List.mem_map]
          exact ⟨x, hx2.1, by rw [hq]; simpa using hx2.2⟩
        rw [List.mem_map] at hmem
        obtain ⟨p, hp, hpq⟩ := hmem
        exact List.any_eq_true.mpr ⟨p, hp, by simp [hpq]⟩
      rw [if_pos hany]
      have := length_ofList_le l
      simp only [List.length_singleton]
      omega
    · have hq0 : List.filter (fun p => p.1 = k) [q] = [] := by
        simp only [List.filter_cons, List.filter_nil]
        rw [if_neg (by simpa using hq)]
      rw [List.filter_append, hq0, List.append_nil] at h
      have := ih h
      simp only [List.length_singleton]
      split <;> omega

theorem ofList_eq_self_of_nodup (l : List (String × KvBody))
    (h : (l.map (fun p => p.1)).Nodup) :
    (ConsulKvData.ofList l).kvMap = l := by
  induction l using List.reverseRecOn with
  | nil => rfl
  | append_singleton l q ih =>
    rw [List.map_append, List.nodup_append] at h
    obtain ⟨h1, _, hd⟩ := h
    rw [ofList_concat, ih h1]
    unfold jsMapSet
    have hno : ¬ (l.any (fun p => p.1 = q.1) = true) := by
      intro hany
      rw [List.any_eq_true] at hany
      obtain ⟨p, hp, hpq⟩ := hany
      have hpq2 : p.1 = q.1 := by simpa using hpq
      exact hd (List.mem_map.mpr ⟨p, hp, rfl⟩) (by simp [hpq2])
    rw [if_neg hno]

theorem builtEntries_true (parse : String → Option JsonValue) (rs : List RawRecord) :
    builtEntries parse true rs =
      rs.filterMap (fun r => (parse (recordValue r)).map
        (fun j => (recordKey r, (⟨r, Sum.inr j⟩ : KvBody)))) := rfl

theorem length_builtEntries_true (parse : String → Option JsonValue)
    (rs : List RawRecord) :
    (builtEntries parse true rs).length +
      (rs.filter (fun r => parse (recordValue r) = none)).length = rs.length := by
  induction rs with
  | nil => rfl
  | cons r rs ih =>
    have hstep : builtEntries parse true (r :: rs) =
        (match parse (recordValue r) with
          | some j => [(recordKey r, (⟨r, Sum.inr j⟩ : KvBody))]
          | none => []) ++ builtEntries parse true rs := by
      rw [builtEntries_true, builtEntries_true, List.filterMap_cons]
      cases hp : parse (recordValue r) <;> simp [hp]
    rw [hstep, List.length_append, List.filter_cons]
    cases hp : parse (recordValue r) with
    | none =>
      rw [if_pos (by simp [hp])]
      simp [hp]
      omega
    | some j =>
      rw [if_neg (by simp [hp])]
      simp [hp]
      omega

theorem length_filter_pos_neg {α : Type} (p : α → Bool) (xs : List α) :
    (xs.filter p).length + (xs.filter (fun a => ! p a)).length = xs.length := by
  induction xs with
  | nil => rfl
  | cons x xs ih =>
    rw [List.filter_cons, List.filter_cons]
    by_cases h : p x <;> simp [h] <;> omega

/-- C7: the Record Validator returns empty valid-records and exactly one
payload diagnostic on a non-sequence input, both lists empty on an empty
sequence, and otherwise exactly one diagnostic per invalid element
(carrying that element) while valid elements pass through unchanged in
order; the element and diagnostic counts add up to the input length, so a
batch of N elements with M invalid ones yields M diagnostics and N minus
M valid records. -/
theorem filterValidKvRecords_spec :
    (∀ t, filterValidKvRecords (.notArray t) =
        ⟨[], [invalidPayloadError (.notArray t)]⟩) ∧
    (filterValidKvRecords (.arr []) = ⟨[], []⟩) ∧
    (∀ xs : List RawRecord,
      (filterValidKvRecords (.arr xs)).validRecords =
          xs.filter (fun r => isValidKvRecord r) ∧
      (filterValidKvRecords (.arr xs)).errors =
          (xs.filter (fun r => ! isValidKvRecord r)).map invalidRecordError ∧
      (filterValidKvRecords (.arr xs)).validRecords.length +
          (filterValidKvRecords (.arr xs)).errors.length = xs.length) := by
  refine ⟨fun t => rfl, rfl, fun xs => ?_⟩
  rw [filterValidKvRecords_arr]
  refine ⟨rfl, rfl, ?_⟩
  show (xs.filter _).length + ((xs.filter _).map _).length = xs.length
  rw [List.length_map]
  exact length_filter_pos_neg _ xs

/-- A record with all six required fields present. -/
def mkValidRecord (k v : String) : RawRecord :=
  .obj true true true true true true k v

/-- A parse function that accepts every value. -/
def parseIdent : String → Option JsonValue := fun s => some s

/-- A parse function that rejects exactly the value bad. -/
def parseNoBad : String → Option JsonValue :=
  fun s => if s = "bad" then none else some s

/-- A batch with two valid records sharing one key. -/
def dupInput : RawInput := .arr [mkValidRecord "a" "1", mkValidRecord "a" "2"]

/-- A batch with two valid records on distinct keys, the second of which
fails structured decoding under parseNoBad. -/
def goodInput : RawInput := .arr [mkValidRecord "a" "1", mkValidRecord "b" "bad"]

/-- C8 counterexample: a batch of two valid records with the same key and
decodable values has two valid records and zero decode failures, yet the
snapshot holds a single key, so the key count is not valid-records minus
decode-failures. -/
theorem build_json_dup_key_counterexample :
    (filterValidKvRecords dupInput).validRecords.length = 2 ∧
    ((filterValidKvRecords dupInput).validRecords.filter
        (fun r => parseIdent (recordValue r) = none)).length = 0 ∧
    (buildConsulKvData parseIdent (some dupInput) true).consulKvData.getKeys.length
      = 1 := by
  refine ⟨by decide, by decide, by decide⟩

/-- C8 (amended): with structured decoding enabled, every valid record
whose value fails decoding is excluded from the snapshot entirely and
produces exactly one diagnostic carrying its key and raw value, appended
after the validator diagnostics; and provided the successfully decoded
records carry pairwise distinct keys, the snapshot key count equals the
number of valid records minus the number of decode failures. -/
theorem build_json_decode_spec (parse : String → Option JsonValue) (d : RawInput)
    (hnd : ((builtEntries parse true (filterValidKvRecords d).validRecords).map
        (fun p => p.1)).Nodup) :
    (buildConsulKvData parse (some d) true).errors =
        (filterValidKvRecords d).errors ++
          ((filterValidKvRecords d).validRecords.filter
            (fun r => parse (recordValue r) = none)).map invalidJsonError ∧
    (buildConsulKvData parse (some d) true).consulKvData.kvMap =
        builtEntries parse true (filterValidKvRecords d).validRecords ∧
    (buildConsulKvData parse (some d) true).consulKvData.getKeys.length =
        (filterValidKvRecords d).validRecords.length -
          ((filterValidKvRecords d).validRecords.filter
            (fun r => parse (recordValue r) = none)).length := by
  rw [buildConsulKvData_some]
  refine ⟨by simp, ofList_eq_self_of_nodup _ hnd, ?_⟩
  show (ConsulKvData.getKeys _).length = _
  unfold ConsulKvData.getKeys
  rw [List.length_map]
  show (ConsulKvData.ofList _).kvMap.length = _
  rw [ofList_eq_self_of_nodup _ hnd]
  have := length_builtEntries_true parse (filterValidKvRecords d).validRecords
  omega

/-- C8 witness: a concrete batch with distinct keys where one record
fails decoding; the theorem applies and gives the exact entry list. -/
theorem build_json_decode_spec_witness :
    ((builtEntries parseNoBad true (filterValidKvRecords goodInput).validRecords).map
        (fun p => p.1)).Nodup ∧
    (buildConsulKvData parseNoBad (some goodInput) true).consulKvData.kvMap =
        builtEntries parseNoBad true (filterValidKvRecords goodInput).validRecords :=
  ⟨by decide, (build_json_decode_spec parseNoBad goodInput (by decide)).2.1⟩

/-- C10: when the built entry list contains two or more entries with the
same key, the snapshot holds that key exactly once, getValue and
getMetadata return the value and metadata of the last such entry in
input order, and the snapshot key count is strictly less than the number
of successfully decoded valid records. -/
theorem snapshot_duplicate_key_last_wins (parse : String → Option JsonValue)
    (json : Bool) (d : RawInput) (k : String)
    (h2 : 2 ≤ ((builtEntries parse json (filterValidKvRecords d).validRecords).filter
        (fun p => p.1 = k)).length) :
    (buildConsulKvData parse (some d) json).consulKvData.getKeys.count k = 1 ∧
    (buildConsulKvData parse (some d) json).consulKvData.getValue k =
        (((builtEntries parse json (filterValidKvRecords d).validRecords).filter
          (fun p => p.1 = k)).getLast?).map (fun p => p.2.value) ∧
    (buildConsulKvData parse (some d) json).consulKvData.getMetadata k =
        (((builtEntries parse json (filterValidKvRecords d).validRecords).filter
          (fun p => p.1 = k)).getLast?).map (fun p => p.2.metaData) ∧
    (buildConsulKvData parse (some d) json).consulKvData.getKeys.length <
        (builtEntries parse json (filterValidKvRecords d).validRecords).length := by
  rw [buildConsulKvData_some]
  have hne : (builtEntries parse json (filterValidKvRecords d).validRecords).filter
      (fun p => p.1 = k) ≠ [] := by
    intro he
    rw [he] at h2
    simp at h2
  obtain ⟨x, hx⟩ := List.exists_mem_of_ne_nil _ hne
  have hx2 := List.mem_filter.mp hx
  have hmem : k ∈ (ConsulKvData.ofList
      (builtEntries parse json (filterValidKvRecords d).validRecords)).kvMap.map
        (fun p => p.1) := by
    rw [mem_keys_ofList, List.mem_map]
    exact ⟨x, hx2.1, by simpa using hx2.2⟩
  refine ⟨?_, ?_, ?_, ?_⟩
  · exact List.count_eq_one_of_mem (nodup_keys_ofList _) hmem
  · show ((ConsulKvData.ofList _).kvMap.find? _).map _ = _
    rw [find?_ofList]
  · show ((ConsulKvData.ofList _).kvMap.find? _).map _ = _
    rw [find?_ofList]
  · show ((ConsulKvData.ofList _).kvMap.map _).length < _
    rw [List.length_map]
    exact length_ofList_lt _ k h2

/-- C10 witness: the duplicate-key batch instantiates the theorem. -/
theorem snapshot_duplicate_key_last_wins_witness :
    2 ≤ ((builtEntries parseIdent true (filterValidKvRecords dupInput).validRecords).filter
        (fun p => p.1 = "a")).length ∧
    (buildConsulKvData parseIdent (some dupInput) true).consulKvData.getKeys.count "a"
      = 1 :=
  ⟨by decide, (snapshot_duplicate_key_last_wins parseIdent true dupInput "a"
    (by decide)).1⟩

/-
The watch orchestrator (class ConsulKvMonitor).  The runtime state Sys
holds the monitor fields (initialized, isWatchHealthy, the session
reference watchKvChange, the two timer handle fields, the snapshot and
the headers) together with the armed timers of the JavaScript engine
(live), the setImmediate queue of deferred error emissions
(pendingImmediate) and a fresh-id counter for timer handles.  The
external watch-session collaborator is modelled by its phase (waiting
for the first response, or with the persistent handlers attached) and
its updateTime accessor.  Handlers run atomically: JavaScript is single
threaded and each handler runs to completion (including the microtask
continuations it resolves) before any other event fires.
-/

/-- Notifications emitted by the monitor. -/
inductive Emission where
  | healthy
  | unhealthy
  | changed (kv : ConsulKvData)
  | error (e : KvError)
deriving DecidableEq

/-- Who awaits the pending start promise: a caller of the public start,
or the retry procedure. -/
inductive Waiter where
  | user
  | retry
deriving DecidableEq

/-- Phase of the watch session: starting carries the waiter of the
pending promise and the id of the armed initial-fetch deadline timer. -/
inductive SPhase where
  | starting (w : Waiter) (deadlineId : Nat)
  | attached
deriving DecidableEq

/-- The watch-session collaborator: its updateTime accessor value and
its phase. -/
structure Session where
  updateTime : Nat
  phase : SPhase
deriving DecidableEq

/-- Kind of an armed engine timer. -/
inductive TimerKind where
  | initDeadline
  | retryStart
  | fallbackInterval (baseline : Nat)
deriving DecidableEq

/-- An armed timer of the engine: id, kind, configured delay in msec. -/
structure Timer where
  tid : Nat
  kind : TimerKind
  delayMsec : Nat
deriving DecidableEq

/-- Whether a timer is the fallback-to-healthy interval. -/
def Timer.isFallback (t : Timer) : Bool :=
  match t.kind with
  | .fallbackInterval _ => true
  | _ => false

/-- The three X-Consul headers copied verbatim from each response. -/
structure Headers where
  xConsulIndex : Option String
  xConsulKnownLeader : Option String
  xConsulLastContact : Option String
deriving DecidableEq

/-- Runtime state: monitor fields plus engine timers and the deferred
emission queue. -/
structure Sys where
  timeoutMsec : Nat
  json : Bool
  initialized : Bool
  isWatchHealthy : Bool
  session : Option Session
  fallbackHandle : Option Nat
  retryHandle : Option Nat
  consulKvData : ConsulKvData
  consulHeaders : Headers
  live : List Timer
  pendingImmediate : List Emission
  nextId : Nat
deriving DecidableEq

/-- State after the constructor: uninitialized, unhealthy, no session,
no timers, empty snapshot and headers. -/
def initialSys (tmo : Nat) (json : Bool) : Sys :=
  { timeoutMsec := tmo, json := json, initialized := false, isWatchHealthy := false,
    session := none, fallbackHandle := none, retryHandle := none,
    consulKvData := ConsulKvData.ofList [], consulHeaders := ⟨none, none, none⟩,
    live := [], pendingImmediate := [], nextId := 0 }

/-- clearTimeout and clearInterval: disarm the timer with the given id. -/
def clearTimer (s : Sys) (i : Nat) : Sys :=
  { s with live := s.live.filter (fun t => t.tid ≠ i) }

/-- Method unsetFallbackToWatchHealthy: clearInterval on the stored
handle (a no-op when it is null) and null the handle field. -/
def unsetFallbackToWatchHealthy (s : Sys) : Sys :=
  let s1 := match s.fallbackHandle with
    | some i => clearTimer s i
    | none => s
  { s1 with fallbackHandle := none }

/-- Method setFallbackToWatchHealthy: cancel a prior interval first,
read the session updateTime as the baseline, and arm a fresh 1000 msec
interval, storing its handle.  Reading updateTime on a null session
would throw in JavaScript; that branch is unreachable because the
method is only invoked from the error handler of an attached session
(the returned state is unused there; see the Step relation). -/
def setFallbackToWatchHealthy (s : Sys) : Sys :=
  let s1 := if s.fallbackHandle ≠ none then unsetFallbackToWatchHealthy s else s
  match s1.session with
  | none => s1
  | some sess =>
    { s1 with live := s1.live ++ [⟨s1.nextId, .fallbackInterval sess.updateTime, 1000⟩],
              fallbackHandle := some s1.nextId, nextId := s1.nextId + 1 }

/-- The fallback interval callback with its captured baseline: when the
watch is healthy, disarm and do nothing else; otherwise, when the
session updateTime moved away from the baseline, disarm, flip to
healthy and emit healthy (and no changed).  Reading updateTime on a
null session would throw; a live fallback interval implies an attached
session in every reachable state (proved below), so the null branch is
modelled as inert. -/
def fallbackTick (s : Sys) (baseline : Nat) : Sys × List Emission :=
  if s.isWatchHealthy then (unsetFallbackToWatchHealthy s, [])
  else
    match s.session with
    | none => (s, [])
    | some sess =>
      if baseline ≠ sess.updateTime then
        ({ unsetFallbackToWatchHealthy s with isWatchHealthy := true }, [.healthy])
      else (s, [])

/-- The synchronous part of registerWatcherAndWaitForInitialKvData:
create the watch, attach the one-shot first-change and first-error
listeners and arm the initial-fetch deadline timer. -/
def registerWatcher (s : Sys) (w : Waiter) : Sys :=
  { s with session := some ⟨0, .starting w s.nextId⟩,
           live := s.live ++ [⟨s.nextId, .initDeadline, s.timeoutMsec⟩],
           nextId := s.nextId + 1 }

/-- Method start: reject with AlreadyInitializedError when a watcher is
registered, leaving the state untouched; otherwise register the watcher
and wait (the promise continuations are the first-change, first-error
and deadline events below). -/
def startMonitor (s : Sys) (w : Waiter) : Option KvError × Sys :=
  if s.session ≠ none then
    (some (.alreadyInitializedError "Service is already started"), s)
  else (none, registerWatcher s w)

/-- Method stop: clear a pending retry timer; when no watcher is
registered return; otherwise detach the end listener, end and discard
the session (so no further session event can fire), cancel the fallback
interval and mark uninitialized and unhealthy.  The method returns the
monitor itself, so its result is just the new state. -/
def stopMonitor (s : Sys) : Sys :=
  let s1 := match s.retryHandle with
    | some i => { clearTimer s i with retryHandle := none }
    | none => s
  if s1.session = none then s1
  else
    let s2 := { s1 with session := none }
    let s3 := unsetFallbackToWatchHealthy s2
    { s3 with initialized := false, isWatchHealthy := false }

/-- Handling of a rejected start promise: a user caller just receives
the rejection; the retry procedure catch block defers one error
emission through setImmediate and arms the 1000 msec retry timer,
storing its handle. -/
def startFailurePath (s : Sys) (w : Waiter) (e : KvError) : Sys :=
  match w with
  | .user => s
  | .retry =>
    { s with pendingImmediate := s.pendingImmediate ++ [.error e],
             live := s.live ++ ([⟨s.nextId, TimerKind.retryStart, 1000⟩] : List Timer),
             retryHandle := some s.nextId, nextId := s.nextId + 1 }

/-- The one-shot first-error listener: detach the first-change
listener, end and discard the session, clear the deadline timer and
reject the start promise with a WatchError wrapping the cause. -/
def firstErrorFires (s : Sys) (msg : String) : Sys :=
  match s.session with
  | some ⟨_, .starting w dId⟩ =>
    startFailurePath (clearTimer { s with session := none } dId) w (.watchError msg)
  | _ => s

/-- Outcome of the deadline callback: either a state, or an uncaught
TypeError (the callback dereferences the monitor session field, which
stop set to null). -/
inductive JsOutcome where
  | ok (s : Sys)
  | typeErrorOnNull
deriving DecidableEq

/-- The initial-fetch deadline callback: it reads the session field to
detach the first listeners; when stop nulled the field first, this
throws.  Otherwise it ends and discards the session and rejects the
start promise with WatchTimeoutError (the fired one-shot timer is
consumed by the engine). -/
def deadlineFire (s : Sys) : JsOutcome :=
  match s.session with
  | none => .typeErrorOnNull
  | some ⟨_, .starting w dId⟩ =>
    .ok (startFailurePath (clearTimer { s with session := none } dId) w
      (.watchTimeoutError "Initial consul watch request was timed out"))
  | some ⟨_, .attached⟩ => .ok s

/-- The one-shot first-change listener together with the then
continuation of start and, for a retry waiter, the resumed retry
procedure: clear the deadline, build the snapshot, copy the headers,
defer the factory diagnostics through setImmediate, attach the
persistent handlers, mark initialized and healthy, store the snapshot;
a resumed retry additionally emits healthy then changed. -/
def firstChangeFires (parse : String → Option JsonValue) (s : Sys) (data : RawInput)
    (resp : Headers) (newUT : Nat) : Sys × List Emission :=
  match s.session with
  | some ⟨_, .starting w dId⟩ =>
    let s1 := clearTimer s dId
    let b := buildConsulKvData parse (some data) s.json
    let s2 := { s1 with consulHeaders := resp }
    let s3 := if b.errors ≠ [] then
        { s2 with pendingImmediate := s2.pendingImmediate ++ b.errors.map .error }
      else s2
    let s4 := { s3 with session := some ⟨newUT, .attached⟩, initialized := true,
                        isWatchHealthy := true, consulKvData := b.consulKvData }
    match w with
    | .user => (s4, [])
    | .retry => (s4, [.healthy, .changed b.consulKvData])
  | _ => (s, [])

/-- Handler onWatcherChange on an attached session (the collaborator
updates its updateTime with each successful response before emitting
change): remember whether the watch was unhealthy, flip to healthy,
rebuild the snapshot, copy the headers, emit healthy first when the
health state changed, always emit changed with the new snapshot, and
defer the factory diagnostics through setImmediate in order. -/
def onWatcherChangeFires (parse : String → Option JsonValue) (s : Sys)
    (data : RawInput) (resp : Headers) (newUT : Nat) : Sys × List Emission :=
  let hChanged := ! s.isWatchHealthy
  let s0 := { s with isWatchHealthy := true,
                     session := s.session.map (fun (sess : Session) => { sess with updateTime := newUT }) }
  let b := buildConsulKvData parse (some data) s0.json
  let s1 := { s0 with consulKvData := b.consulKvData, consulHeaders := resp }
  let s2 := if b.errors ≠ [] then
      { s1 with pendingImmediate := s1.pendingImmediate ++ b.errors.map .error }
    else s1
  (s2, (if hChanged then [Emission.healthy] else []) ++ [.changed b.consulKvData])

/-- Handler onWatcherError: cancel any existing fallback interval
first; when healthy, flip to unhealthy and emit unhealthy; rearm the
fallback interval; finally emit an error wrapping the cause. -/
def onWatcherErrorFires (s : Sys) (msg : String) : Sys × List Emission :=
  let s1 := unsetFallbackToWatchHealthy s
  let p := if s1.isWatchHealthy then
      ({ s1 with isWatchHealthy := false }, [Emission.unhealthy])
    else (s1, ([] : List Emission))
  (setFallbackToWatchHealthy p.1, p.2 ++ [.error (.watchError msg)])

/-- Handler onWatcherEnd: cancel the fallback interval, mark
uninitialized, flip to unhealthy (emitting unhealthy) when healthy,
discard the session reference and invoke the retry procedure, whose
awaited start call synchronously registers a fresh watcher (the guard
passes because the session field was just cleared). -/
def onWatcherEndFires (s : Sys) : Sys × List Emission :=
  let s1 := unsetFallbackToWatchHealthy s
  let s2 := { s1 with initialized := false }
  let p := if s2.isWatchHealthy then
      ({ s2 with isWatchHealthy := false }, [Emission.unhealthy])
    else (s2, ([] : List Emission))
  ((startMonitor { p.1 with session := none } .retry).2, p.2)

/-- The retry timer callback: the fired one-shot timer is consumed by
the engine, then retryStartService runs start; a synchronous rejection
(a session is already registered) goes through the catch block, a
successful registration leaves the state waiting for the first
response. -/
def retryTimerFires (s : Sys) (i : Nat) : Sys :=
  let s1 := clearTimer s i
  match startMonitor s1 .retry with
  | (some e, s2) => startFailurePath s2 .retry e
  | (none, s2) => s2

/-- A setImmediate flush: the queued diagnostics are emitted in order. -/
def immediateFires (s : Sys) : Sys × List Emission :=
  ({ s with pendingImmediate := [] }, s.pendingImmediate)

/-- One transition of the event loop.  Each constructor is one handler
or timer callback running to completion.  Scope note: a manual start is
modelled only from a quiescent state (no armed timers and no pending
retry); re-entering start while a stale deadline or retry timer from an
earlier incarnation is still armed is outside the modelled state space,
and a deadline firing against a nulled session has no successor state
(the callback throws; see deadlineFire). -/
inductive Step : Sys → Sys → Prop where
  | user_start (s : Sys) (h1 : s.session = none) (h2 : s.live = [])
      (h3 : s.retryHandle = none) :
      Step s (startMonitor s .user).2
  | stop_call (s : Sys) : Step s (stopMonitor s)
  | first_change (s : Sys) (parse : String → Option JsonValue) (data : RawInput)
      (resp : Headers) (newUT ut : Nat) (w : Waiter) (dId : Nat)
      (h : s.session = some ⟨ut, .starting w dId⟩) :
      Step s (firstChangeFires parse s data resp newUT).1
  | first_error (s : Sys) (msg : String) (ut : Nat) (w : Waiter) (dId : Nat)
      (h : s.session = some ⟨ut, .starting w dId⟩) :
      Step s (firstErrorFires s msg)
  | deadline_timeout (s : Sys) (t : Timer) (ut : Nat) (w : Waiter)
      (hmem : t ∈ s.live) (hk : t.kind = TimerKind.initDeadline)
      (h : s.session = some ⟨ut, .starting w t.tid⟩) (s2 : Sys)
      (hout : deadlineFire s = .ok s2) :
      Step s s2
  | watcher_change (s : Sys) (parse : String → Option JsonValue) (data : RawInput)
      (resp : Headers) (newUT ut : Nat) (h : s.session = some ⟨ut, SPhase.attached⟩) :
      Step s (onWatcherChangeFires parse s data resp newUT).1
  | watcher_error (s : Sys) (msg : String) (ut : Nat)
      (h : s.session = some ⟨ut, SPhase.attached⟩) :
      Step s (onWatcherErrorFires s msg).1
  | watcher_end (s : Sys) (ut : Nat) (h : s.session = some ⟨ut, SPhase.attached⟩) :
      Step s (onWatcherEndFires s).1
  | retry_fire (s : Sys) (t : Timer) (hmem : t ∈ s.live)
      (hk : t.kind = TimerKind.retryStart) :
      Step s (retryTimerFires s t.tid)
  | fallback_tick_fire (s : Sys) (t : Timer) (b : Nat) (hmem : t ∈ s.live)
      (hk : t.kind = TimerKind.fallbackInterval b) :
      Step s (fallbackTick s b).1
  | immediate_fire (s : Sys) : Step s (immediateFires s).1
  | silent_update (s : Sys) (sess : Session) (newUT : Nat)
      (h : s.session = some sess) :
      Step s { s with session := some { sess with updateTime := newUT } }

/-- Reachable states: the constructor state (with a positive timeout,
as validated by the constructor) closed under event-loop transitions. -/
inductive Reach : Sys → Prop where
  | init (tmo : Nat) (json : Bool) (hpos : 0 < tmo) : Reach (initialSys tmo json)
  | step (s s2 : Sys) (h : Reach s) (hs : Step s s2) : Reach s2

theorem unsetFB_session (s : Sys) :
    (unsetFallbackToWatchHealthy s).session = s.session := by
  unfold unsetFallbackToWatchHealthy
  cases s.fallbackHandle <;> rfl

theorem unsetFB_initialized (s : Sys) :
    (unsetFallbackToWatchHealthy s).initialized = s.initialized := by
  unfold unsetFallbackToWatchHealthy
  cases s.fallbackHandle <;> rfl

theorem unsetFB_isWatchHealthy (s : Sys) :
    (unsetFallbackToWatchHealthy s).isWatchHealthy = s.isWatchHealthy := by
  unfold unsetFallbackToWatchHealthy
  cases s.fallbackHandle <;> rfl

theorem unsetFB_retryHandle (s : Sys) :
    (unsetFallbackToWatchHealthy s).retryHandle = s.retryHandle := by
  unfold unsetFallbackToWatchHealthy
  cases s.fallbackHandle <;> rfl

theorem unsetFB_fallbackHandle (s : Sys) :
    (unsetFallbackToWatchHealthy s).fallbackHandle = none := by
  unfold unsetFallbackToWatchHealthy
  cases s.fallbackHandle <;> rfl

theorem unsetFB_nextId (s : Sys) :
    (unsetFallbackToWatchHealthy s).nextId = s.nextId := by
  unfold unsetFallbackToWatchHealthy
  cases s.fallbackHandle <;> rfl

theorem unsetFB_pendingImmediate (s : Sys) :
    (unsetFallbackToWatchHealthy s).pendingImmediate = s.pendingImmediate := by
  unfold unsetFallbackToWatchHealthy
  cases s.fallbackHandle <;> rfl

theorem unsetFB_live (s : Sys) :
    (unsetFallbackToWatchHealthy s).live =
      match s.fallbackHandle with
      | some i => s.live.filter (fun t => t.tid ≠ i)
      | none => s.live := by
  unfold unsetFallbackToWatchHealthy
  cases s.fallbackHandle <;> rfl

theorem map_tid_eq_singleton {l : List Timer} {i : Nat}
    (h : l.map Timer.tid = [i]) : ∃ t0, l = [t0] ∧ t0.tid = i := by
  match l with
  | [] => simp at h
  | t0 :: tl =>
    rw [List.map_cons] at h
    injection h with h1 h2
    have : tl = [] := by
      cases tl with
      | nil => rfl
      | cons a b => simp at h2
    exact ⟨t0, by rw [this], h1⟩

theorem fbfilter_clear_of_ne (l : List Timer) (i : Nat)
    (h : ∀ t ∈ l, Timer.isFallback t = true → t.tid ≠ i) :
    (l.filter (fun t => t.tid ≠ i)).filter Timer.isFallback =
      l.filter Timer.isFallback := by
  rw [List.filter_filter]
  refine List.filter_congr (fun t ht => ?_)
  by_cases hf : Timer.isFallback t = true
  · simp [hf, h t ht hf]
  · simp [eq_false_of_ne_true hf]

theorem fbfilter_clear_self (l : List Timer) (i : Nat)
    (h : (l.filter Timer.isFallback).map Timer.tid = [i]) :
    (l.filter (fun t => t.tid ≠ i)).filter Timer.isFallback = [] := by
  obtain ⟨t0, hl, hti⟩ := map_tid_eq_singleton h
  rw [List.filter_filter]
  rw [List.filter_eq_nil_iff]
  intro t ht
  by_cases hf : Timer.isFallback t = true
  · have hmem : t ∈ l.filter Timer.isFallback := List.mem_filter.mpr ⟨ht, hf⟩
    rw [hl, List.mem_singleton] at hmem
    subst hmem
    simp [hti]
  · simp [eq_false_of_ne_true hf]

theorem nodup_tid_filter (l : List Timer) (p : Timer → Bool)
    (h : (l.map Timer.tid).Nodup) : ((l.filter p).map Timer.tid).Nodup :=
  List.Nodup.sublist (List.Sublist.map _ (List.filter_sublist l)) h

/-- The reachability invariant: the initialized flag implies an attached
session; a stored fallback handle implies an attached session; the
armed fallback intervals are exactly the one referenced by the handle;
every armed retry timer is the one referenced by the retry handle, and
none is armed while a session exists; the fallback and retry handles
never alias; armed timer ids are distinct and below the fresh counter,
as are the stored handles. -/
structure GoodSys (s : Sys) : Prop where
  g_init : s.initialized = true → ∃ ut, s.session = some ⟨ut, SPhase.attached⟩
  g_fb_session : ∀ i, s.fallbackHandle = some i →
    ∃ ut, s.session = some ⟨ut, SPhase.attached⟩
  g_fb_live : (s.live.filter Timer.isFallback).map Timer.tid = s.fallbackHandle.toList
  g_retry_live : ∀ t ∈ s.live, t.kind = TimerKind.retryStart →
    s.retryHandle = some t.tid
  g_no_retry_sess : s.session ≠ none → ∀ t ∈ s.live, t.kind ≠ TimerKind.retryStart
  g_fb_retry_ne : ∀ i j, s.fallbackHandle = some i → s.retryHandle = some j → i ≠ j
  g_ids : (s.live.map Timer.tid).Nodup
  g_fresh : ∀ t ∈ s.live, t.tid < s.nextId
  g_fb_lt : ∀ i, s.fallbackHandle = some i → i < s.nextId
  g_retry_lt : ∀ i, s.retryHandle = some i → i < s.nextId

theorem good_initial (tmo : Nat) (json : Bool) : GoodSys (initialSys tmo json) := by
  refine ⟨?_, ?_, ?_, ?_, ?_, ?_, ?_, ?_, ?_, ?_⟩ <;>
    simp [initialSys]

theorem good_user_start (s : Sys) (g : GoodSys s) (h1 : s.session = none)
    (h2 : s.live = []) (h3 : s.retryHandle = none) :
    GoodSys (startMonitor s .user).2 := by
  have hfb : s.fallbackHandle = none := by
    cases hfb : s.fallbackHandle with
    | none => rfl
    | some i =>
      obtain ⟨ut, hs⟩ := g.g_fb_session i hfb
      rw [h1] at hs
      cases hs
  have hini : s.initialized = false := by
    cases hini : s.initialized with
    | false => rfl
    | true =>
      obtain ⟨ut, hs⟩ := g.g_init hini
      rw [h1] at hs
      cases hs
  have hred : (startMonitor s .user).2 = registerWatcher s .user := by
    unfold startMonitor
    rw [if_neg (by simp [h1])]
  rw [hred]
  unfold registerWatcher
  refine ⟨?_, ?_, ?_, ?_, ?_, ?_, ?_, ?_, ?_, ?_⟩ <;>
    simp_all [Timer.isFallback]

theorem good_stop_retry_cleared (s : Sys) (g : GoodSys s) :
    GoodSys (match s.retryHandle with
      | some i => { clearTimer s i with retryHandle := none }
      | none => s) := by
  cases hr : s.retryHandle with
  | none => exact g
  | some i =>
    refine ⟨?_, ?_, ?_, ?_, ?_, ?_, ?_, ?_, ?_, ?_⟩
    · exact fun hi => g.g_init hi
    · exact fun j hj => g.g_fb_session j hj
    · show ((s.live.filter (fun t => t.tid ≠ i)).filter Timer.isFallback).map _ =
        s.fallbackHandle.toList
      rw [fbfilter_clear_of_ne]
      · exact g.g_fb_live
      · intro t ht hf hti
        have hmem : t.tid ∈ (s.live.filter Timer.isFallback).map Timer.tid :=
          List.mem_map.mpr ⟨t, List.mem_filter.mpr ⟨ht, hf⟩, rfl⟩
        rw [g.g_fb_live] at hmem
        cases hfb : s.fallbackHandle with
        | none => rw [hfb] at hmem; cases hmem
        | some j =>
          rw [hfb] at hmem
          simp at hmem
          exact g.g_fb_retry_ne j i hfb hr (by rw [← hmem, hti])
    · intro t ht hk
      have h2 := List.mem_filter.mp ht
      have := g.g_retry_live t h2.1 hk
      rw [hr] at this
      injection this with hcon
      exact absurd hcon.symm (by simpa using h2.2)
    · intro hs t ht hk
      exact g.g_no_retry_sess hs t (List.mem_filter.mp ht).1 hk
    · intro a b _ hb
      cases hb
    · exact nodup_tid_filter _ _ g.g_ids
    · exact fun t ht => g.g_fresh t (List.mem_filter.mp ht).1
    · exact fun j hj => g.g_fb_lt j hj
    · intro a ha
      cases ha

theorem stop_live_after (s1 : Sys) :
    (unsetFallbackToWatchHealthy { s1 with session := none }).live =
      match s1.fallbackHandle with
      | some i => s1.live.filter (fun t => t.tid ≠ i)
      | none => s1.live := unsetFB_live _

theorem good_stop_tail (s1 : Sys) (g1 : GoodSys s1) (hr1 : s1.retryHandle = none) :
    GoodSys (if s1.session = none then s1 else
      { unsetFallbackToWatchHealthy { s1 with session := none } with
        initialized := false, isWatchHealthy := false }) := by
  by_cases hse : s1.session = none
  · rw [if_pos hse]
    exact g1
  · rw [if_neg hse]
    have hnoretry : ∀ t ∈ s1.live, t.kind ≠ TimerKind.retryStart := by
      intro t ht hk
      have h2 := g1.g_retry_live t ht hk
      rw [hr1] at h2
      cases h2
    have hmem_sub : ∀ t : Timer,
        t ∈ (unsetFallbackToWatchHealthy { s1 with session := none }).live →
          t ∈ s1.live := by
      intro t ht
      rw [stop_live_after] at ht
      cases hfb : s1.fallbackHandle with
      | none => rw [hfb] at ht; exact ht
      | some i => rw [hfb] at ht; exact (List.mem_filter.mp ht).1
    refine ⟨?_, ?_, ?_, ?_, ?_, ?_, ?_, ?_, ?_, ?_⟩
    · intro hi
      cases hi
    · intro i hi
      have hfb : (unsetFallbackToWatchHealthy { s1 with session := none }).fallbackHandle
          = none := unsetFB_fallbackHandle _
      rw [show ({ unsetFallbackToWatchHealthy { s1 with session := none } with
        initialized := false, isWatchHealthy := false } : Sys).fallbackHandle =
          (unsetFallbackToWatchHealthy { s1 with session := none }).fallbackHandle
        from rfl, hfb] at hi
      cases hi
    · show ((unsetFallbackToWatchHealthy { s1 with session := none }).live.filter
        Timer.isFallback).map Timer.tid =
          Option.toList (unsetFallbackToWatchHealthy
            { s1 with session := none }).fallbackHandle
      rw [unsetFB_fallbackHandle, stop_live_after]
      cases hfb : s1.fallbackHandle with
      | none =>
        show (s1.live.filter Timer.isFallback).map Timer.tid =
          Option.toList (none : Option Nat)
        have h2 := g1.g_fb_live
        rw [hfb] at h2
        exact h2
      | some i =>
        show ((s1.live.filter (fun t => t.tid ≠ i)).filter Timer.isFallback).map
          Timer.tid = Option.toList (none : Option Nat)
        have h2 := g1.g_fb_live
        rw [hfb] at h2
        rw [fbfilter_clear_self _ _ h2]
        rfl
    · intro t ht hk
      exact absurd hk (hnoretry t (hmem_sub t ht))
    · intro hs t ht
      exact hnoretry t (hmem_sub t ht)
    · intro a b ha
      have hfb : (unsetFallbackToWatchHealthy { s1 with session := none }).fallbackHandle
          = none := unsetFB_fallbackHandle _
      rw [show ({ unsetFallbackToWatchHealthy { s1 with session := none } with
        initialized := false, isWatchHealthy := false } : Sys).fallbackHandle =
          (unsetFallbackToWatchHealthy { s1 with session := none }).fallbackHandle
        from rfl, hfb] at ha
      cases ha
    · show ((unsetFallbackToWatchHealthy { s1 with session := none }).live.map
        Timer.tid).Nodup
      rw [stop_live_after]
      cases s1.fallbackHandle with
      | none => exact g1.g_ids
      | some i => exact nodup_tid_filter _ _ g1.g_ids
    · intro t ht
      show t.tid < (unsetFallbackToWatchHealthy { s1 with session := none }).nextId
      rw [unsetFB_nextId]
      exact g1.g_fresh t (hmem_sub t ht)
    · intro a ha
      have hfb : (unsetFallbackToWatchHealthy { s1 with session := none }).fallbackHandle
          = none := unsetFB_fallbackHandle _
      rw [show ({ unsetFallbackToWatchHealthy { s1 with session := none } with
        initialized := false, isWatchHealthy := false } : Sys).fallbackHandle =
          (unsetFallbackToWatchHealthy { s1 with session := none }).fallbackHandle
        from rfl, hfb] at ha
      cases ha
    · intro a ha
      have hr2 : (unsetFallbackToWatchHealthy { s1 with session := none }).retryHandle
          = s1.retryHandle := unsetFB_retryHandle _
      rw [show ({ unsetFallbackToWatchHealthy { s1 with session := none } with
        initialized := false, isWatchHealthy := false } : Sys).retryHandle =
          (unsetFallbackToWatchHealthy { s1 with session := none }).retryHandle
        from rfl, hr2, hr1] at ha
      cases ha

theorem startMonitor_already (s : Sys) (w : Waiter) (h : s.session ≠ none) :
    startMonitor s w =
      (some (.alreadyInitializedError "Service is already started"), s) := by
  unfold startMonitor
  rw [if_pos h]

theorem startMonitor_register (s : Sys) (w : Waiter) (h : s.session = none) :
    startMonitor s w = (none, registerWatcher s w) := by
  unfold startMonitor
  rw [if_neg (by simp [h])]

theorem firstChange_fst (parse : String → Option JsonValue) (s : Sys) (data : RawInput)
    (resp : Headers) (newUT ut : Nat) (w : Waiter) (dId : Nat)
    (h : s.session = some ⟨ut, .starting w dId⟩) :
    (firstChangeFires parse s data resp newUT).1 =
      { s with live := s.live.filter (fun t => t.tid ≠ dId),
               consulHeaders := resp,
               pendingImmediate :=
                 if (buildConsulKvData parse (some data) s.json).errors ≠ [] then
                   s.pendingImmediate ++
                     (buildConsulKvData parse (some data) s.json).errors.map .error
                 else s.pendingImmediate,
               session := some ⟨newUT, .attached⟩,
               initialized := true,
               isWatchHealthy := true,
               consulKvData :=
                 (buildConsulKvData parse (some data) s.json).consulKvData } := by
  unfold firstChangeFires
  rw [h]
  cases w <;>
    dsimp only [clearTimer] <;>
      by_cases he : (buildConsulKvData parse (some data) s.json).errors ≠ [] <;>
        first
          | rw [if_pos he, if_pos he]
          | rw [if_neg he, if_neg he]

theorem firstChange_snd_user (parse : String → Option JsonValue) (s : Sys)
    (data : RawInput) (resp : Headers) (newUT ut : Nat) (dId : Nat)
    (h : s.session = some ⟨ut, .starting .user dId⟩) :
    (firstChangeFires parse s data resp newUT).2 = [] := by
  unfold firstChangeFires
  rw [h]

theorem firstChange_snd_retry (parse : String → Option JsonValue) (s : Sys)
    (data : RawInput) (resp : Headers) (newUT ut : Nat) (dId : Nat)
    (h : s.session = some ⟨ut, .starting .retry dId⟩) :
    (firstChangeFires parse s data resp newUT).2 =
      [.healthy, .changed (buildConsulKvData parse (some data) s.json).consulKvData] := by
  unfold firstChangeFires
  rw [h]

theorem firstError_eq (s : Sys) (msg : String) (ut : Nat) (w : Waiter) (dId : Nat)
    (h : s.session = some ⟨ut, .starting w dId⟩) :
    firstErrorFires s msg =
      startFailurePath (clearTimer { s with session := none } dId) w
        (.watchError msg) := by
  unfold firstErrorFires
  rw [h]

theorem deadlineFire_eq (s : Sys) (ut : Nat) (w : Waiter) (dId : Nat)
    (h : s.session = some ⟨ut, .starting w dId⟩) :
    deadlineFire s =
      .ok (startFailurePath (clearTimer { s with session := none } dId) w
        (.watchTimeoutError "Initial consul watch request was timed out")) := by
  unfold deadlineFire
  rw [h]

theorem deadlineFire_null (s : Sys) (h : s.session = none) :
    deadlineFire s = .typeErrorOnNull := by
  unfold deadlineFire
  rw [h]

theorem onWatcherChange_eq (parse : String → Option JsonValue) (s : Sys)
    (data : RawInput) (resp : Headers) (newUT : Nat) :
    onWatcherChangeFires parse s data resp newUT =
      ({ s with isWatchHealthy := true,
                session := s.session.map
                  (fun (sess : Session) => { sess with updateTime := newUT }),
                consulKvData := (buildConsulKvData parse (some data) s.json).consulKvData,
                consulHeaders := resp,
                pendingImmediate :=
                  if (buildConsulKvData parse (some data) s.json).errors ≠ [] then
                    s.pendingImmediate ++
                      (buildConsulKvData parse (some data) s.json).errors.map .error
                  else s.pendingImmediate },
        (if s.isWatchHealthy then [] else [Emission.healthy]) ++
          [.changed (buildConsulKvData parse (some data) s.json).consulKvData]) := by
  unfold onWatcherChangeFires
  dsimp only
  by_cases hw : s.isWatchHealthy = true
  · rw [hw]
    by_cases he : (buildConsulKvData parse (some data) s.json).errors ≠ []
    · rw [if_pos he, if_pos he]
      rfl
    · rw [if_neg he, if_neg he]
      rfl
  · have hw2 : s.isWatchHealthy = false := by
      revert hw
      cases s.isWatchHealthy <;> simp
    rw [hw2]
    by_cases he : (buildConsulKvData parse (some data) s.json).errors ≠ []
    · rw [if_pos he, if_pos he]
      rfl
    · rw [if_neg he, if_neg he]
      rfl

theorem onWatcherError_eq (s : Sys) (msg : String) (ut : Nat)
    (h : s.session = some ⟨ut, SPhase.attached⟩) :
    onWatcherErrorFires s msg =
      ({ s with isWatchHealthy := false,
                fallbackHandle := some s.nextId,
                nextId := s.nextId + 1,
                live := (match s.fallbackHandle with
                    | some i => s.live.filter (fun t => t.tid ≠ i)
                    | none => s.live) ++ [⟨s.nextId, .fallbackInterval ut, 1000⟩] },
        (if s.isWatchHealthy then [Emission.unhealthy] else []) ++
          [.error (.watchError msg)]) := by
  unfold onWatcherErrorFires setFallbackToWatchHealthy unsetFallbackToWatchHealthy
  dsimp only [clearTimer]
  cases hfb : s.fallbackHandle with
  | none =>
    dsimp only
    by_cases hw : s.isWatchHealthy = true
    · rw [hw]
      rw [if_pos rfl, if_pos rfl]
      dsimp only
      rw [if_neg (by simp)]
      rw [h]
    · have hw2 : s.isWatchHealthy = false := by
        revert hw
        cases s.isWatchHealthy <;> simp
      rw [hw2]
      rw [if_neg (by simp), if_neg (by simp)]
      dsimp only
      rw [if_neg (by simp)]
      rw [h]
  | some i =>
    dsimp only
    by_cases hw : s.isWatchHealthy = true
    · rw [hw]
      rw [if_pos rfl, if_pos rfl]
      dsimp only
      rw [if_neg (by simp)]
      rw [h]
    · have hw2 : s.isWatchHealthy = false := by
        revert hw
        cases s.isWatchHealthy <;> simp
      rw [hw2]
      rw [if_neg (by simp), if_neg (by simp)]
      dsimp only
      rw [if_neg (by simp)]
      rw [h]

theorem onWatcherEnd_eq (s : Sys) :
    onWatcherEndFires s =
      ({ s with initialized := false,
                isWatchHealthy := false,
                fallbackHandle := none,
                session := some ⟨0, .starting .retry s.nextId⟩,
                live := (match s.fallbackHandle with
                    | some i => s.live.filter (fun t => t.tid ≠ i)
                    | none => s.live) ++ [⟨s.nextId, .initDeadline, s.timeoutMsec⟩],
                nextId := s.nextId + 1 },
        (if s.isWatchHealthy then [Emission.unhealthy] else [])) := by
  unfold onWatcherEndFires startMonitor registerWatcher unsetFallbackToWatchHealthy
  dsimp only [clearTimer]
  cases hfb : s.fallbackHandle with
  | none =>
    dsimp only
    by_cases hw : s.isWatchHealthy = true
    · rw [hw]
      rw [if_pos rfl, if_pos rfl]
      dsimp only
      rw [if_neg (by simp)]
    · have hw2 : s.isWatchHealthy = false := by
        revert hw
        cases s.isWatchHealthy <;> simp
      rw [hw2]
      rw [if_neg (by simp), if_neg (by simp)]
      dsimp only
      rw [if_neg (by simp)]
  | some i =>
    dsimp only
    by_cases hw : s.isWatchHealthy = true
    · rw [hw]
      rw [if_pos rfl, if_pos rfl]
      dsimp only
      rw [if_neg (by simp)]
    · have hw2 : s.isWatchHealthy = false := by
        revert hw
        cases s.isWatchHealthy <;> simp
      rw [hw2]
      rw [if_neg (by simp), if_neg (by simp)]
      dsimp only
      rw [if_neg (by simp)]

theorem retryFire_none_eq (s : Sys) (i : Nat) (h : s.session = none) :
    retryTimerFires s i = registerWatcher (clearTimer s i) .retry := by
  unfold retryTimerFires startMonitor
  dsimp only
  rw [show (clearTimer s i).session = s.session from rfl, h]
  rw [if_neg (by simp)]

theorem retryFire_some_eq (s : Sys) (i : Nat) (sess : Session)
    (h : s.session = some sess) :
    retryTimerFires s i =
      startFailurePath (clearTimer s i) .retry
        (.alreadyInitializedError "Service is already started") := by
  unfold retryTimerFires startMonitor
  dsimp only
  rw [show (clearTimer s i).session = s.session from rfl, h]
  rw [if_pos (by simp)]

theorem fallbackTick_healthy (s : Sys) (b : Nat) (hw : s.isWatchHealthy = true) :
    fallbackTick s b = (unsetFallbackToWatchHealthy s, []) := by
  unfold fallbackTick
  rw [if_pos hw]

theorem fallbackTick_recover (s : Sys) (b : Nat) (sess : Session)
    (hw : s.isWatchHealthy = false) (h : s.session = some sess)
    (hb : b ≠ sess.updateTime) :
    fallbackTick s b =
      ({ unsetFallbackToWatchHealthy s with isWatchHealthy := true },
        [.healthy]) := by
  unfold fallbackTick
  rw [if_neg (by simp [hw]), h]
  simp only [if_pos hb]

theorem fallbackTick_idle (s : Sys) (b : Nat) (sess : Session)
    (hw : s.isWatchHealthy = false) (h : s.session = some sess)
    (hb : ¬ b ≠ sess.updateTime) :
    fallbackTick s b = (s, []) := by
  unfold fallbackTick
  rw [if_neg (by simp [hw]), h]
  simp only [if_neg hb]

theorem good_stop (s : Sys) (g : GoodSys s) : GoodSys (stopMonitor s) := by
  unfold stopMonitor
  cases hr : s.retryHandle with
  | none =>
    have g1 := good_stop_retry_cleared s g
    rw [hr] at g1
    exact good_stop_tail s g1 hr
  | some i =>
    have g1 := good_stop_retry_cleared s g
    rw [hr] at g1
    exact good_stop_tail { clearTimer s i with retryHandle := none } g1 rfl

theorem fb_live_empty (s : Sys) (g : GoodSys s) (hfb : s.fallbackHandle = none) :
    s.live.filter Timer.isFallback = [] := by
  have h2 := g.g_fb_live
  rw [hfb] at h2
  exact List.map_eq_nil_iff.mp h2

theorem no_fb_of_handle_none (s : Sys) (g : GoodSys s)
    (hfb : s.fallbackHandle = none) :
    ∀ t ∈ s.live, ¬ Timer.isFallback t = true :=
  List.filter_eq_nil_iff.mp (fb_live_empty s g hfb)

theorem session_starting_facts (s : Sys) (g : GoodSys s) (ut : Nat) (w : Waiter)
    (dId : Nat) (h : s.session = some ⟨ut, .starting w dId⟩) :
    s.initialized = false ∧ s.fallbackHandle = none ∧
      (∀ t ∈ s.live, t.kind ≠ TimerKind.retryStart) := by
  refine ⟨?_, ?_, g.g_no_retry_sess (by rw [h]; simp)⟩
  · cases hini : s.initialized with
    | false => rfl
    | true =>
      obtain ⟨ut2, hs⟩ := g.g_init hini
      rw [h] at hs
      injection hs with he
      injection he with h1 h2
      cases h2
  · cases hfb : s.fallbackHandle with
    | none => rfl
    | some i =>
      obtain ⟨ut2, hs⟩ := g.g_fb_session i hfb
      rw [h] at hs
      injection hs with he
      injection he with h1 h2
      cases h2

theorem unsetFB_eq_none (s : Sys) (hfb : s.fallbackHandle = none) :
    unsetFallbackToWatchHealthy s = { s with fallbackHandle := none } := by
  unfold unsetFallbackToWatchHealthy
  rw [hfb]

theorem unsetFB_eq_some (s : Sys) (i : Nat) (hfb : s.fallbackHandle = some i) :
    unsetFallbackToWatchHealthy s =
      { s with live := s.live.filter (fun t => t.tid ≠ i),
               fallbackHandle := none } := by
  unfold unsetFallbackToWatchHealthy
  rw [hfb]
  rfl

theorem good_unsetFB (s : Sys) (g : GoodSys s) :
    GoodSys (unsetFallbackToWatchHealthy s) := by
  cases hfb : s.fallbackHandle with
  | none =>
    rw [unsetFB_eq_none s hfb]
    refine ⟨g.g_init, ?_, ?_, g.g_retry_live, g.g_no_retry_sess, ?_, g.g_ids,
      g.g_fresh, ?_, g.g_retry_lt⟩
    · intro i hi
      cases hi
    · show (s.live.filter Timer.isFallback).map Timer.tid =
        Option.toList (none : Option Nat)
      rw [fb_live_empty s g hfb]
      rfl
    · intro i j hi
      cases hi
    · intro i hi
      cases hi
  | some i =>
    rw [unsetFB_eq_some s i hfb]
    have h2 := g.g_fb_live
    rw [hfb] at h2
    refine ⟨g.g_init, ?_, ?_, ?_, ?_, ?_, nodup_tid_filter _ _ g.g_ids, ?_, ?_, g.g_retry_lt⟩
    · intro j hj
      cases hj
    · show ((s.live.filter (fun t => t.tid ≠ i)).filter Timer.isFallback).map
        Timer.tid = Option.toList (none : Option Nat)
      rw [fbfilter_clear_self _ _ h2]
      rfl
    · exact fun t ht hk => g.g_retry_live t (List.mem_filter.mp ht).1 hk
    · exact fun hs t ht => g.g_no_retry_sess hs t (List.mem_filter.mp ht).1
    · intro a b ha
      cases ha
    · exact fun t ht => g.g_fresh t (List.mem_filter.mp ht).1
    · intro a ha
      cases ha

theorem good_start_failure (s : Sys) (g : GoodSys s) (ut : Nat) (w : Waiter)
    (dId : Nat) (h : s.session = some ⟨ut, .starting w dId⟩) (e : KvError) :
    GoodSys (startFailurePath (clearTimer { s with session := none } dId) w e) := by
  obtain ⟨hini, hfb, hnr⟩ := session_starting_facts s g ut w dId h
  have hnofb := no_fb_of_handle_none s g hfb
  have hfilterfb : (s.live.filter (fun t => t.tid ≠ dId)).filter Timer.isFallback
      = [] := by
    rw [List.filter_eq_nil_iff]
    intro t ht
    exact hnofb t (List.mem_filter.mp ht).1
  cases w with
  | user =>
    show GoodSys (clearTimer { s with session := none } dId)
    refine ⟨?_, ?_, ?_, ?_, ?_, ?_, nodup_tid_filter _ _ g.g_ids, ?_, ?_,
      g.g_retry_lt⟩
    · intro hi
      have hi2 : s.initialized = true := hi
      rw [hini] at hi2
      cases hi2
    · intro i hi
      have hi2 : s.fallbackHandle = some i := hi
      rw [hfb] at hi2
      cases hi2
    · show ((s.live.filter (fun t => t.tid ≠ dId)).filter Timer.isFallback).map
        Timer.tid = Option.toList s.fallbackHandle
      rw [hfilterfb, hfb]
      rfl
    · intro t ht hk
      exact absurd hk (hnr t (List.mem_filter.mp ht).1)
    · intro hs t ht hk
      exact hnr t (List.mem_filter.mp ht).1 hk
    · intro i j hi
      have hi2 : s.fallbackHandle = some i := hi
      rw [hfb] at hi2
      cases hi2
    · exact fun t ht => g.g_fresh t (List.mem_filter.mp ht).1
    · intro i hi
      have hi2 : s.fallbackHandle = some i := hi
      rw [hfb] at hi2
      cases hi2
  | retry =>
    show GoodSys { clearTimer { s with session := none } dId with
      pendingImmediate := (clearTimer { s with session := none } dId).pendingImmediate
        ++ [.error e],
      live := (clearTimer { s with session := none } dId).live ++
        [⟨(clearTimer { s with session := none } dId).nextId, .retryStart, 1000⟩],
      retryHandle := some (clearTimer { s with session := none } dId).nextId,
      nextId := (clearTimer { s with session := none } dId).nextId + 1 }
    refine ⟨?_, ?_, ?_, ?_, ?_, ?_, ?_, ?_, ?_, ?_⟩
    · intro hi
      have hi2 : s.initialized = true := hi
      rw [hini] at hi2
      cases hi2
    · intro i hi
      have hi2 : s.fallbackHandle = some i := hi
      rw [hfb] at hi2
      cases hi2
    · show (((s.live.filter (fun t => t.tid ≠ dId)) ++
        ([⟨s.nextId, TimerKind.retryStart, 1000⟩] : List Timer)).filter Timer.isFallback).map Timer.tid =
          Option.toList s.fallbackHandle
      rw [List.filter_append, hfilterfb, hfb]
      rfl
    · intro t ht hk
      have ht2 : t ∈ s.live.filter (fun t => t.tid ≠ dId) ++
          ([⟨s.nextId, TimerKind.retryStart, 1000⟩] : List Timer) := ht
      rcases List.mem_append.mp ht2 with hold | hnew
      · exact absurd hk (hnr t (List.mem_filter.mp hold).1)
      · rw [List.mem_singleton] at hnew
        subst hnew
        rfl
    · intro hs t ht hk
      exact absurd rfl hs
    · intro i j hi
      have hi2 : s.fallbackHandle = some i := hi
      rw [hfb] at hi2
      cases hi2
    · show (((s.live.filter (fun t => t.tid ≠ dId)) ++
        ([⟨s.nextId, TimerKind.retryStart, 1000⟩] : List Timer)).map Timer.tid).Nodup
      rw [List.map_append, List.nodup_append]
      refine ⟨nodup_tid_filter _ _ g.g_ids, by simp, ?_⟩
      intro a ha hb
      rw [List.mem_map] at ha
      obtain ⟨t, ht, hta⟩ := ha
      simp at hb
      have := g.g_fresh t (List.mem_filter.mp ht).1
      omega
    · intro t ht
      have ht2 : t ∈ s.live.filter (fun t => t.tid ≠ dId) ++
          ([⟨s.nextId, TimerKind.retryStart, 1000⟩] : List Timer) := ht
      show t.tid < s.nextId + 1
      rcases List.mem_append.mp ht2 with hold | hnew
      · have := g.g_fresh t (List.mem_filter.mp hold).1
        omega
      · rw [List.mem_singleton] at hnew
        subst hnew
        simp
    · intro i hi
      have hi2 : s.fallbackHandle = some i := hi
      rw [hfb] at hi2
      cases hi2
    · intro i hi
      have hi2 : some s.nextId = some i := hi
      injection hi2 with hi3
      show i < s.nextId + 1
      omega

theorem good_first_error (s : Sys) (g : GoodSys s) (msg : String) (ut : Nat)
    (w : Waiter) (dId : Nat) (h : s.session = some ⟨ut, .starting w dId⟩) :
    GoodSys (firstErrorFires s msg) := by
  rw [firstError_eq s msg ut w dId h]
  exact good_start_failure s g ut w dId h _

theorem good_deadline (s : Sys) (g : GoodSys s) (ut : Nat) (w : Waiter)
    (dId : Nat) (h : s.session = some ⟨ut, .starting w dId⟩) (s2 : Sys)
    (hout : deadlineFire s = .ok s2) : GoodSys s2 := by
  rw [deadlineFire_eq s ut w dId h] at hout
  injection hout with h2
  rw [← h2]
  exact good_start_failure s g ut w dId h _

theorem good_first_change (s : Sys) (g : GoodSys s)
    (parse : String → Option JsonValue) (data : RawInput) (resp : Headers)
    (newUT ut : Nat) (w : Waiter) (dId : Nat)
    (h : s.session = some ⟨ut, .starting w dId⟩) :
    GoodSys (firstChangeFires parse s data resp newUT).1 := by
  obtain ⟨hini, hfb, hnr⟩ := session_starting_facts s g ut w dId h
  have hnofb := no_fb_of_handle_none s g hfb
  rw [firstChange_fst parse s data resp newUT ut w dId h]
  refine ⟨?_, ?_, ?_, ?_, ?_, ?_, nodup_tid_filter _ _ g.g_ids, ?_, ?_,
    g.g_retry_lt⟩
  · intro hi
    exact ⟨newUT, rfl⟩
  · intro i hi
    have hi2 : s.fallbackHandle = some i := hi
    rw [hfb] at hi2
    cases hi2
  · show ((s.live.filter (fun t => t.tid ≠ dId)).filter Timer.isFallback).map
      Timer.tid = Option.toList s.fallbackHandle
    have hfilterfb : (s.live.filter (fun t => t.tid ≠ dId)).filter Timer.isFallback
        = [] := by
      rw [List.filter_eq_nil_iff]
      intro t ht
      exact hnofb t (List.mem_filter.mp ht).1
    rw [hfilterfb, hfb]
    rfl
  · intro t ht hk
    exact absurd hk (hnr t (List.mem_filter.mp ht).1)
  · intro hs t ht hk
    exact hnr t (List.mem_filter.mp ht).1 hk
  · intro i j hi
    have hi2 : s.fallbackHandle = some i := hi
    rw [hfb] at hi2
    cases hi2
  · exact fun t ht => g.g_fresh t (List.mem_filter.mp ht).1
  · intro i hi
    have hi2 : s.fallbackHandle = some i := hi
    rw [hfb] at hi2
    cases hi2

theorem fallbackTick_null (s : Sys) (b : Nat) (hw : s.isWatchHealthy = false)
    (h : s.session = none) : fallbackTick s b = (s, []) := by
  unfold fallbackTick
  rw [if_neg (by simp [hw]), h]

theorem good_after_error (s : Sys) (g : GoodSys s) (ut : Nat) (M : List Timer)
    (hsess : s.session = some ⟨ut, SPhase.attached⟩)
    (hsub : ∀ t ∈ M, t ∈ s.live)
    (hfb0 : M.filter Timer.isFallback = [])
    (hnd : (M.map Timer.tid).Nodup) :
    GoodSys { s with isWatchHealthy := false,
                     fallbackHandle := some s.nextId,
                     nextId := s.nextId + 1,
                     live := M ++ ([⟨s.nextId, TimerKind.fallbackInterval ut, 1000⟩] : List Timer) } := by
  have hnr := g.g_no_retry_sess (by rw [hsess]; simp)
  refine ⟨?_, ?_, ?_, ?_, ?_, ?_, ?_, ?_, ?_, ?_⟩
  · intro hi
    exact g.g_init hi
  · intro i hi
    exact ⟨ut, hsess⟩
  · show ((M ++ ([⟨s.nextId, TimerKind.fallbackInterval ut, 1000⟩] : List Timer)).filter
      Timer.isFallback).map Timer.tid = Option.toList (some s.nextId)
    rw [List.filter_append, hfb0]
    rfl
  · intro t ht hk
    rcases List.mem_append.mp ht with hold | hnew
    · exact absurd hk (hnr t (hsub t hold))
    · rw [List.mem_singleton] at hnew
      subst hnew
      cases hk
  · intro hs t ht hk
    rcases List.mem_append.mp ht with hold | hnew
    · exact hnr t (hsub t hold) hk
    · rw [List.mem_singleton] at hnew
      subst hnew
      cases hk
  · intro i j hi hj
    have hi2 : some s.nextId = some i := hi
    injection hi2 with hi3
    have hj2 : s.retryHandle = some j := hj
    have := g.g_retry_lt j hj2
    omega
  · show ((M ++ ([⟨s.nextId, TimerKind.fallbackInterval ut, 1000⟩] : List Timer)).map
      Timer.tid).Nodup
    rw [List.map_append, List.nodup_append]
    refine ⟨hnd, by simp, ?_⟩
    intro a ha hb
    rw [List.mem_map] at ha
    obtain ⟨t, ht, hta⟩ := ha
    simp at hb
    have := g.g_fresh t (hsub t ht)
    omega
  · intro t ht
    show t.tid < s.nextId + 1
    rcases List.mem_append.mp ht with hold | hnew
    · have := g.g_fresh t (hsub t hold)
      omega
    · rw [List.mem_singleton] at hnew
      subst hnew
      simp
  · intro i hi
    have hi2 : some s.nextId = some i := hi
    injection hi2 with hi3
    show i < s.nextId + 1
    omega
  · intro i hi
    have hi2 : s.retryHandle = some i := hi
    have := g.g_retry_lt i hi2
    show i < s.nextId + 1
    omega

theorem good_watcher_error (s : Sys) (g : GoodSys s) (msg : String) (ut : Nat)
    (h : s.session = some ⟨ut, SPhase.attached⟩) :
    GoodSys (onWatcherErrorFires s msg).1 := by
  rw [onWatcherError_eq s msg ut h]
  cases hfb : s.fallbackHandle with
  | none =>
    exact good_after_error s g ut s.live h (fun t ht => ht)
      (fb_live_empty s g hfb) g.g_ids
  | some i =>
    have h2 := g.g_fb_live
    rw [hfb] at h2
    exact good_after_error s g ut (s.live.filter (fun t => t.tid ≠ i)) h
      (fun t ht => (List.mem_filter.mp ht).1)
      (fbfilter_clear_self _ _ h2)
      (nodup_tid_filter _ _ g.g_ids)

theorem good_after_end (s : Sys) (g : GoodSys s) (ut : Nat) (M : List Timer)
    (hsess : s.session = some ⟨ut, SPhase.attached⟩)
    (hsub : ∀ t ∈ M, t ∈ s.live)
    (hfb0 : M.filter Timer.isFallback = [])
    (hnd : (M.map Timer.tid).Nodup) :
    GoodSys { s with initialized := false, isWatchHealthy := false,
                     fallbackHandle := none,
                     session := some ⟨0, .starting .retry s.nextId⟩,
                     live := M ++ ([⟨s.nextId, TimerKind.initDeadline, s.timeoutMsec⟩] : List Timer),
                     nextId := s.nextId + 1 } := by
  have hnr := g.g_no_retry_sess (by rw [hsess]; simp)
  refine ⟨?_, ?_, ?_, ?_, ?_, ?_, ?_, ?_, ?_, ?_⟩
  · intro hi
    cases hi
  · intro i hi
    cases hi
  · show ((M ++ ([⟨s.nextId, TimerKind.initDeadline, s.timeoutMsec⟩] : List Timer)).filter
      Timer.isFallback).map Timer.tid = Option.toList (none : Option Nat)
    rw [List.filter_append, hfb0]
    rfl
  · intro t ht hk
    rcases List.mem_append.mp ht with hold | hnew
    · exact absurd hk (hnr t (hsub t hold))
    · rw [List.mem_singleton] at hnew
      subst hnew
      cases hk
  · intro hs t ht hk
    rcases List.mem_append.mp ht with hold | hnew
    · exact hnr t (hsub t hold) hk
    · rw [List.mem_singleton] at hnew
      subst hnew
      cases hk
  · intro i j hi
    cases hi
  · show ((M ++ ([⟨s.nextId, TimerKind.initDeadline, s.timeoutMsec⟩] : List Timer)).map
      Timer.tid).Nodup
    rw [List.map_append, List.nodup_append]
    refine ⟨hnd, by simp, ?_⟩
    intro a ha hb
    rw [List.mem_map] at ha
    obtain ⟨t, ht, hta⟩ := ha
    simp at hb
    have := g.g_fresh t (hsub t ht)
    omega
  · intro t ht
    show t.tid < s.nextId + 1
    rcases List.mem_append.mp ht with hold | hnew
    · have := g.g_fresh t (hsub t hold)
      omega
    · rw [List.mem_singleton] at hnew
      subst hnew
      simp
  · intro i hi
    cases hi
  · intro i hi
    have hi2 : s.retryHandle = some i := hi
    have := g.g_retry_lt i hi2
    show i < s.nextId + 1
    omega

theorem good_watcher_end (s : Sys) (g : GoodSys s) (ut : Nat)
    (h : s.session = some ⟨ut, SPhase.attached⟩) :
    GoodSys (onWatcherEndFires s).1 := by
  rw [onWatcherEnd_eq s]
  cases hfb : s.fallbackHandle with
  | none =>
    exact good_after_end s g ut s.live h (fun t ht => ht)
      (fb_live_empty s g hfb) g.g_ids
  | some i =>
    have h2 := g.g_fb_live
    rw [hfb] at h2
    exact good_after_end s g ut (s.live.filter (fun t => t.tid ≠ i)) h
      (fun t ht => (List.mem_filter.mp ht).1)
      (fbfilter_clear_self _ _ h2)
      (nodup_tid_filter _ _ g.g_ids)

theorem good_watcher_change (s : Sys) (g : GoodSys s)
    (parse : String → Option JsonValue) (data : RawInput) (resp : Headers)
    (newUT ut : Nat) (h : s.session = some ⟨ut, SPhase.attached⟩) :
    GoodSys (onWatcherChangeFires parse s data resp newUT).1 := by
  rw [onWatcherChange_eq parse s data resp newUT]
  refine ⟨?_, ?_, g.g_fb_live, g.g_retry_live, ?_, g.g_fb_retry_ne, g.g_ids,
    g.g_fresh, g.g_fb_lt, g.g_retry_lt⟩
  · intro hi
    refine ⟨newUT, ?_⟩
    show s.session.map (fun (sess : Session) => { sess with updateTime := newUT }) =
      some ⟨newUT, SPhase.attached⟩
    rw [h]
    rfl
  · intro i hi
    refine ⟨newUT, ?_⟩
    show s.session.map (fun (sess : Session) => { sess with updateTime := newUT }) =
      some ⟨newUT, SPhase.attached⟩
    rw [h]
    rfl
  · intro hs2 t ht hk
    exact g.g_no_retry_sess (by rw [h]; simp) t ht hk

theorem good_retry_fire (s : Sys) (g : GoodSys s) (t : Timer)
    (hmem : t ∈ s.live) (hk : t.kind = TimerKind.retryStart) :
    GoodSys (retryTimerFires s t.tid) := by
  cases hsess : s.session with
  | some sess =>
    exact absurd hk (g.g_no_retry_sess (by rw [hsess]; simp) t hmem)
  | none =>
    rw [retryFire_none_eq s t.tid hsess]
    have hfb : s.fallbackHandle = none := by
      cases hfb : s.fallbackHandle with
      | none => rfl
      | some i =>
        obtain ⟨ut2, hs⟩ := g.g_fb_session i hfb
        rw [hsess] at hs
        cases hs
    have hini : s.initialized = false := by
      cases hini : s.initialized with
      | false => rfl
      | true =>
        obtain ⟨ut2, hs⟩ := g.g_init hini
        rw [hsess] at hs
        cases hs
    have hretry : s.retryHandle = some t.tid := g.g_retry_live t hmem hk
    have hnoretry : ∀ u ∈ s.live.filter (fun t2 => t2.tid ≠ t.tid),
        u.kind ≠ TimerKind.retryStart := by
      intro u hu hk2
      have h3 := g.g_retry_live u (List.mem_filter.mp hu).1 hk2
      rw [hretry] at h3
      injection h3 with h4
      exact absurd h4.symm (by simpa using (List.mem_filter.mp hu).2)
    refine ⟨?_, ?_, ?_, ?_, ?_, ?_, ?_, ?_, ?_, ?_⟩
    · intro hi
      have hi2 : s.initialized = true := hi
      rw [hini] at hi2
      cases hi2
    · intro i hi
      have hi2 : s.fallbackHandle = some i := hi
      rw [hfb] at hi2
      cases hi2
    · show ((s.live.filter (fun t2 => t2.tid ≠ t.tid) ++
        ([⟨s.nextId, TimerKind.initDeadline, s.timeoutMsec⟩] : List Timer)).filter
          Timer.isFallback).map Timer.tid = Option.toList s.fallbackHandle
      have hf : (s.live.filter (fun t2 => t2.tid ≠ t.tid)).filter Timer.isFallback
          = [] := by
        rw [List.filter_eq_nil_iff]
        intro u hu
        exact no_fb_of_handle_none s g hfb u (List.mem_filter.mp hu).1
      rw [List.filter_append, hf, hfb]
      rfl
    · intro u hu hk2
      have hu2 : u ∈ s.live.filter (fun t2 => t2.tid ≠ t.tid) ++
          ([⟨s.nextId, TimerKind.initDeadline, s.timeoutMsec⟩] : List Timer) := hu
      rcases List.mem_append.mp hu2 with hold | hnew
      · exact absurd hk2 (hnoretry u hold)
      · rw [List.mem_singleton] at hnew
        subst hnew
        cases hk2
    · intro hs u hu hk2
      have hu2 : u ∈ s.live.filter (fun t2 => t2.tid ≠ t.tid) ++
          ([⟨s.nextId, TimerKind.initDeadline, s.timeoutMsec⟩] : List Timer) := hu
      rcases List.mem_append.mp hu2 with hold | hnew
      · exact hnoretry u hold hk2
      · rw [List.mem_singleton] at hnew
        subst hnew
        cases hk2
    · intro i j hi
      have hi2 : s.fallbackHandle = some i := hi
      rw [hfb] at hi2
      cases hi2
    · show ((s.live.filter (fun t2 => t2.tid ≠ t.tid) ++
        ([⟨s.nextId, TimerKind.initDeadline, s.timeoutMsec⟩] : List Timer)).map Timer.tid).Nodup
      rw [List.map_append, List.nodup_append]
      refine ⟨nodup_tid_filter _ _ g.g_ids, by simp, ?_⟩
      intro a ha hb
      rw [List.mem_map] at ha
      obtain ⟨u, hu, hua⟩ := ha
      simp at hb
      have := g.g_fresh u (List.mem_filter.mp hu).1
      omega
    · intro u hu
      have hu2 : u ∈ s.live.filter (fun t2 => t2.tid ≠ t.tid) ++
          ([⟨s.nextId, TimerKind.initDeadline, s.timeoutMsec⟩] : List Timer) := hu
      show u.tid < s.nextId + 1
      rcases List.mem_append.mp hu2 with hold | hnew
      · have := g.g_fresh u (List.mem_filter.mp hold).1
        omega
      · rw [List.mem_singleton] at hnew
        subst hnew
        simp
    · intro i hi
      have hi2 : s.fallbackHandle = some i := hi
      rw [hfb] at hi2
      cases hi2
    · intro i hi
      have hi2 : s.retryHandle = some i := hi
      have := g.g_retry_lt i hi2
      show i < s.nextId + 1
      omega

theorem good_fallback_tick (s : Sys) (g : GoodSys s) (b : Nat) :
    GoodSys (fallbackTick s b).1 := by
  by_cases hw : s.isWatchHealthy = true
  · rw [fallbackTick_healthy s b hw]
    exact good_unsetFB s g
  · have hw2 : s.isWatchHealthy = false := by
      revert hw
      cases s.isWatchHealthy <;> simp
    cases hsess : s.session with
    | none =>
      rw [fallbackTick_null s b hw2 hsess]
      exact g
    | some sess =>
      by_cases hb : b ≠ sess.updateTime
      · rw [fallbackTick_recover s b sess hw2 hsess hb]
        have gu := good_unsetFB s g
        exact ⟨gu.g_init, gu.g_fb_session, gu.g_fb_live, gu.g_retry_live,
          gu.g_no_retry_sess, gu.g_fb_retry_ne, gu.g_ids, gu.g_fresh, gu.g_fb_lt,
          gu.g_retry_lt⟩
      · rw [fallbackTick_idle s b sess hw2 hsess hb]
        exact g

theorem good_immediate (s : Sys) (g : GoodSys s) : GoodSys (immediateFires s).1 :=
  ⟨g.g_init, g.g_fb_session, g.g_fb_live, g.g_retry_live, g.g_no_retry_sess,
    g.g_fb_retry_ne, g.g_ids, g.g_fresh, g.g_fb_lt, g.g_retry_lt⟩

theorem good_silent (s : Sys) (g : GoodSys s) (sess : Session) (newUT : Nat)
    (h : s.session = some sess) :
    GoodSys { s with session := some { sess with updateTime := newUT } } := by
  refine ⟨?_, ?_, g.g_fb_live, g.g_retry_live, ?_, g.g_fb_retry_ne, g.g_ids,
    g.g_fresh, g.g_fb_lt, g.g_retry_lt⟩
  · intro hi
    obtain ⟨ut2, hs⟩ := g.g_init hi
    rw [h] at hs
    injection hs with he
    refine ⟨newUT, ?_⟩
    show some { sess with updateTime := newUT } = some ⟨newUT, SPhase.attached⟩
    rw [he]
  · intro i hi
    obtain ⟨ut2, hs⟩ := g.g_fb_session i hi
    rw [h] at hs
    injection hs with he
    refine ⟨newUT, ?_⟩
    show some { sess with updateTime := newUT } = some ⟨newUT, SPhase.attached⟩
    rw [he]
  · intro hs2 t ht hk
    exact g.g_no_retry_sess (by rw [h]; simp) t ht hk

theorem good_step (s s2 : Sys) (g : GoodSys s) (hs : Step s s2) : GoodSys s2 := by
  cases hs with
  | user_start h1 h2 h3 => exact good_user_start s g h1 h2 h3
  | stop_call => exact good_stop s g
  | first_change parse data resp newUT ut w dId h =>
    exact good_first_change s g parse data resp newUT ut w dId h
  | first_error msg ut w dId h => exact good_first_error s g msg ut w dId h
  | deadline_timeout t ut w hmem hk h s2 hout =>
    exact good_deadline s g ut w t.tid h s2 hout
  | watcher_change parse data resp newUT ut h =>
    exact good_watcher_change s g parse data resp newUT ut h
  | watcher_error msg ut h => exact good_watcher_error s g msg ut h
  | watcher_end ut h => exact good_watcher_end s g ut h
  | retry_fire t hmem hk => exact good_retry_fire s g t hmem hk
  | fallback_tick_fire t b hmem hk => exact good_fallback_tick s g b
  | immediate_fire => exact good_immediate s g
  | silent_update sess newUT h => exact good_silent s g sess newUT h

theorem reach_good (s : Sys) (h : Reach s) : GoodSys s := by
  induction h with
  | init tmo json hpos => exact good_initial tmo json
  | step s s2 h hs ih => exact good_step s s2 ih hs

theorem setFB_eq (s : Sys) (sess : Session) (h : s.session = some sess)
    (hfb : s.fallbackHandle = none) :
    setFallbackToWatchHealthy s =
      { s with
        live := s.live ++ ([⟨s.nextId, TimerKind.fallbackInterval sess.updateTime, 1000⟩] : List Timer),
        fallbackHandle := some s.nextId, nextId := s.nextId + 1 } := by
  unfold setFallbackToWatchHealthy
  rw [if_neg (by simp [hfb])]
  dsimp only
  rw [h]

theorem setFB_eq_clear (s : Sys) (i : Nat) (hfb : s.fallbackHandle = some i)
    (sess : Session) (h : s.session = some sess) :
    setFallbackToWatchHealthy s =
      { s with
        live := s.live.filter (fun t => t.tid ≠ i) ++ ([⟨s.nextId, TimerKind.fallbackInterval sess.updateTime, 1000⟩] : List Timer),
        fallbackHandle := some s.nextId, nextId := s.nextId + 1 } := by
  unfold setFallbackToWatchHealthy
  rw [if_pos (by simp [hfb]), unsetFB_eq_some s i hfb]
  dsimp only
  rw [h]

theorem stop_retryHandle (s : Sys) : (stopMonitor s).retryHandle = none := by
  unfold stopMonitor
  cases hr : s.retryHandle with
  | none =>
    dsimp only
    split
    · exact hr
    · exact (unsetFB_retryHandle _).trans hr
  | some i =>
    dsimp only
    split
    · rfl
    · exact (unsetFB_retryHandle _).trans rfl

/-- Concrete states used to evaluate the theorems: a monitor started once
(mid initial fetch), then initialized by a first change, then losing its
session, then with a failed auto-retry, and one with an active fallback
interval after a watch error. -/
def respW : Headers := ⟨some "313984", some "true", some "0"⟩

def sysA : Sys := (startMonitor (initialSys 5000 false) .user).2

def sysB : Sys := (firstChangeFires parseIdent sysA (.arr []) respW 7).1

def sysC : Sys := (onWatcherEndFires sysB).1

def sysD : Sys := firstErrorFires sysC "connection refused"

def sysE : Sys := (onWatcherErrorFires sysB "watch error").1

theorem reach_sysA : Reach sysA :=
  Reach.step _ _ (Reach.init 5000 false (by decide))
    (Step.user_start (initialSys 5000 false) rfl rfl rfl)

theorem reach_sysB : Reach sysB :=
  Reach.step _ _ reach_sysA
    (Step.first_change sysA parseIdent (.arr []) respW 7 0 .user 0 rfl)

theorem reach_sysC : Reach sysC :=
  Reach.step _ _ reach_sysB (Step.watcher_end sysB 7 rfl)

theorem reach_sysD : Reach sysD :=
  Reach.step _ _ reach_sysC
    (Step.first_error sysC "connection refused" 0 .retry 1 rfl)

theorem reach_sysE : Reach sysE :=
  Reach.step _ _ reach_sysB (Step.watcher_error sysB "watch error" 7 rfl)

/-- C1: code-bug demonstration.  In the reachable state obtained by
calling stop while the initial fetch of start is still pending, stop
itself completes (clearing the retry and fallback handles, discarding
the session and marking the monitor uninitialized and unhealthy), but
the armed initial-fetch deadline timer is not cancelled: it is still
live after stop returns, and when it fires its callback dereferences
the nulled session field and throws an uncaught TypeError instead of
being suppressed. -/
theorem stop_mid_start_leaves_deadline :
    Reach (stopMonitor sysA) ∧
    (stopMonitor sysA).retryHandle = none ∧
    (stopMonitor sysA).fallbackHandle = none ∧
    (stopMonitor sysA).session = none ∧
    (stopMonitor sysA).initialized = false ∧
    (stopMonitor sysA).isWatchHealthy = false ∧
    (⟨0, TimerKind.initDeadline, 5000⟩ : Timer) ∈ (stopMonitor sysA).live ∧
    deadlineFire (stopMonitor sysA) = JsOutcome.typeErrorOnNull :=
  ⟨Reach.step _ _ reach_sysA (Step.stop_call sysA), by decide, by decide,
    by decide, by decide, by decide, by decide, by decide⟩

/-- C2: calling start while a watch session is registered rejects with
AlreadyInitializedError and leaves the whole monitor state (session,
flags, snapshot, headers, timers) unchanged. -/
theorem start_while_active_rejects (s : Sys) (w : Waiter) (h : s.session ≠ none) :
    startMonitor s w =
      (some (KvError.alreadyInitializedError "Service is already started"), s) :=
  startMonitor_already s w h

theorem start_while_active_rejects_witness :
    sysB.session ≠ none ∧
    startMonitor sysB .user =
      (some (KvError.alreadyInitializedError "Service is already started"), sysB) :=
  ⟨by decide, start_while_active_rejects sysB .user (by decide)⟩

/-- C3: in every reachable state at most one fallback interval is armed;
arming a new one first cancels the prior one and leaves exactly the
fresh interval with the session updateTime as baseline; a tick in a
healthy state just disarms the interval and does nothing else; a tick
in an unhealthy state whose baseline differs from the current session
updateTime disarms the interval, flips to healthy and emits exactly one
healthy notification and no changed notification. -/
theorem fallback_timer_spec :
    (∀ s, Reach s → (s.live.filter Timer.isFallback).length ≤ 1) ∧
    (∀ s ut, Reach s → s.session = some ⟨ut, SPhase.attached⟩ →
      (setFallbackToWatchHealthy s).live.filter Timer.isFallback =
          [⟨s.nextId, TimerKind.fallbackInterval ut, 1000⟩] ∧
      (setFallbackToWatchHealthy s).fallbackHandle = some s.nextId) ∧
    (∀ s b, s.isWatchHealthy = true →
      fallbackTick s b = (unsetFallbackToWatchHealthy s, []) ∧
      (fallbackTick s b).1.fallbackHandle = none) ∧
    (∀ s b sess, s.isWatchHealthy = false → s.session = some sess →
      b ≠ sess.updateTime →
      fallbackTick s b =
        ({ unsetFallbackToWatchHealthy s with isWatchHealthy := true },
          [Emission.healthy])) := by
  refine ⟨?_, ?_, ?_, ?_⟩
  · intro s hr
    have hg := (reach_good s hr).g_fb_live
    have h2 := congrArg List.length hg
    rw [List.length_map] at h2
    rw [h2]
    cases s.fallbackHandle <;> simp
  · intro s ut hr h
    have g := reach_good s hr
    cases hfb : s.fallbackHandle with
    | none =>
      rw [setFB_eq s ⟨ut, SPhase.attached⟩ h hfb]
      refine ⟨?_, rfl⟩
      show (s.live ++ ([⟨s.nextId, TimerKind.fallbackInterval ut, 1000⟩] : List Timer)).filter
        Timer.isFallback = _
      rw [List.filter_append, fb_live_empty s g hfb]
      rfl
    | some i =>
      rw [setFB_eq_clear s i hfb ⟨ut, SPhase.attached⟩ h]
      refine ⟨?_, rfl⟩
      have h2 := g.g_fb_live
      rw [hfb] at h2
      show (s.live.filter (fun t => t.tid ≠ i) ++
        ([⟨s.nextId, TimerKind.fallbackInterval ut, 1000⟩] : List Timer)).filter
          Timer.isFallback = _
      rw [List.filter_append, fbfilter_clear_self _ _ h2]
      rfl
  · intro s b hw
    refine ⟨fallbackTick_healthy s b hw, ?_⟩
    rw [fallbackTick_healthy s b hw]
    exact unsetFB_fallbackHandle _
  · intro s b sess hw hsess hb
    exact fallbackTick_recover s b sess hw hsess hb

theorem fallback_timer_spec_witness :
    (sysE.live.filter Timer.isFallback).length ≤ 1 ∧
    (setFallbackToWatchHealthy sysB).fallbackHandle = some sysB.nextId ∧
    fallbackTick sysB 5 = (unsetFallbackToWatchHealthy sysB, []) ∧
    fallbackTick sysE 9 =
      ({ unsetFallbackToWatchHealthy sysE with isWatchHealthy := true },
        [Emission.healthy]) :=
  ⟨fallback_timer_spec.1 sysE reach_sysE,
    (fallback_timer_spec.2.1 sysB 7 reach_sysB rfl).2,
    (fallback_timer_spec.2.2.1 sysB 5 rfl).1,
    fallback_timer_spec.2.2.2 sysE 9 ⟨7, SPhase.attached⟩ rfl rfl (by decide)⟩

/-- The state produced by the deadline timeout of the auto-retry start
in sysC, used as a concrete evaluation point. -/
def sysCdl : Sys :=
  startFailurePath (clearTimer { sysC with session := none } 1) .retry
    (.watchTimeoutError "Initial consul watch request was timed out")

/-- C4: every failure of the retried start (first-error rejection,
deadline timeout, or synchronous already-started rejection when a
session exists) queues exactly one deferred error notification and arms
a fresh 1000 msec retry timer whose handle is stored, so any later
failure reschedules again; a successful retried start stores the new
snapshot and emits healthy followed by changed; and stop in any
reachable state clears the retry handle and leaves no retry timer
armed, so no retry can fire after stop. -/
theorem retry_procedure_spec :
    (∀ s msg ut dId, s.session = some ⟨ut, .starting .retry dId⟩ →
      (firstErrorFires s msg).pendingImmediate =
          s.pendingImmediate ++ [.error (.watchError msg)] ∧
      (firstErrorFires s msg).retryHandle = some s.nextId ∧
      (⟨s.nextId, TimerKind.retryStart, 1000⟩ : Timer) ∈
        (firstErrorFires s msg).live) ∧
    (∀ s ut dId s2, s.session = some ⟨ut, .starting .retry dId⟩ →
      deadlineFire s = .ok s2 →
      s2.pendingImmediate = s.pendingImmediate ++
          [.error (.watchTimeoutError "Initial consul watch request was timed out")] ∧
      s2.retryHandle = some s.nextId ∧
      (⟨s.nextId, TimerKind.retryStart, 1000⟩ : Timer) ∈ s2.live) ∧
    (∀ s i sess, s.session = some sess →
      (retryTimerFires s i).pendingImmediate = s.pendingImmediate ++
          [.error (.alreadyInitializedError "Service is already started")] ∧
      (retryTimerFires s i).retryHandle = some s.nextId ∧
      (⟨s.nextId, TimerKind.retryStart, 1000⟩ : Timer) ∈
        (retryTimerFires s i).live) ∧
    (∀ parse s data resp newUT ut dId,
      s.session = some ⟨ut, .starting .retry dId⟩ →
      (firstChangeFires parse s data resp newUT).2 =
          [.healthy, .changed (buildConsulKvData parse (some data) s.json).consulKvData] ∧
      (firstChangeFires parse s data resp newUT).1.consulKvData =
          (buildConsulKvData parse (some data) s.json).consulKvData) ∧
    (∀ s, Reach s → (stopMonitor s).retryHandle = none ∧
      ∀ t ∈ (stopMonitor s).live, t.kind ≠ TimerKind.retryStart) := by
  refine ⟨?_, ?_, ?_, ?_, ?_⟩
  · intro s msg ut dId h
    rw [firstError_eq s msg ut .retry dId h]
    refine ⟨rfl, by rfl, ?_⟩
    exact List.mem_append.mpr (Or.inr (by simp [clearTimer]))
  · intro s ut dId s2 h hout
    rw [deadlineFire_eq s ut .retry dId h] at hout
    injection hout with h2
    rw [← h2]
    refine ⟨rfl, by rfl, ?_⟩
    exact List.mem_append.mpr (Or.inr (by simp [clearTimer]))
  · intro s i sess h
    rw [retryFire_some_eq s i sess h]
    refine ⟨rfl, by rfl, ?_⟩
    exact List.mem_append.mpr (Or.inr (by simp [clearTimer]))
  · intro parse s data resp newUT ut dId h
    refine ⟨firstChange_snd_retry parse s data resp newUT ut dId h, ?_⟩
    rw [firstChange_fst parse s data resp newUT ut .retry dId h]
  · intro s hr
    refine ⟨stop_retryHandle s, ?_⟩
    intro t ht hk
    have h2 := (good_stop s (reach_good s hr)).g_retry_live t ht hk
    rw [stop_retryHandle] at h2
    cases h2

theorem retry_procedure_spec_witness :
    (firstErrorFires sysC "boom").retryHandle = some sysC.nextId ∧
    sysCdl.retryHandle = some sysC.nextId ∧
    (retryTimerFires sysB 5).retryHandle = some sysB.nextId ∧
    (firstChangeFires parseIdent sysC (.arr []) respW 3).2 =
      [.healthy,
        .changed (buildConsulKvData parseIdent (some (.arr [])) sysC.json).consulKvData] ∧
    (stopMonitor sysD).retryHandle = none :=
  ⟨(retry_procedure_spec.1 sysC "boom" 0 1 rfl).2.1,
    (retry_procedure_spec.2.1 sysC 0 1 sysCdl rfl (by decide)).2.1,
    (retry_procedure_spec.2.2.1 sysB 5 ⟨7, SPhase.attached⟩ rfl).2.1,
    (retry_procedure_spec.2.2.2.1 parseIdent sysC (.arr []) respW 3 0 1 rfl).1,
    (retry_procedure_spec.2.2.2.2 sysD reach_sysD).1⟩

/-- C5: the ongoing change handler always stores the rebuilt snapshot as
current state, ends healthy, emits healthy (exactly when the watch was
unhealthy) strictly before the always-emitted changed notification
carrying the new snapshot, and appends every build diagnostic in order
to the deferred setImmediate queue, which is flushed only after the
handler returns. -/
theorem on_change_spec (parse : String → Option JsonValue) (s : Sys)
    (data : RawInput) (resp : Headers) (newUT : Nat) :
    (onWatcherChangeFires parse s data resp newUT).1.consulKvData =
        (buildConsulKvData parse (some data) s.json).consulKvData ∧
    (onWatcherChangeFires parse s data resp newUT).1.isWatchHealthy = true ∧
    (onWatcherChangeFires parse s data resp newUT).2 =
        (if s.isWatchHealthy then [] else [Emission.healthy]) ++
          [.changed (buildConsulKvData parse (some data) s.json).consulKvData] ∧
    (onWatcherChangeFires parse s data resp newUT).1.pendingImmediate =
        s.pendingImmediate ++
          (buildConsulKvData parse (some data) s.json).errors.map Emission.error := by
  rw [onWatcherChange_eq parse s data resp newUT]
  refine ⟨rfl, rfl, rfl, ?_⟩
  show (if (buildConsulKvData parse (some data) s.json).errors ≠ [] then
      s.pendingImmediate ++
        (buildConsulKvData parse (some data) s.json).errors.map Emission.error
    else s.pendingImmediate) = _
  split
  · rfl
  · next he =>
    rw [not_not.mp he]
    simp

/-- C6: the ongoing error handler cancels any existing fallback interval
first, flips to unhealthy, emits unhealthy exactly when the watch was
healthy and always before the single error notification wrapping the
cause, and rearms exactly one fresh fallback interval whose baseline is
the current session updateTime. -/
theorem on_error_spec (s : Sys) (msg : String) (ut : Nat) (hr : Reach s)
    (h : s.session = some ⟨ut, SPhase.attached⟩) :
    (onWatcherErrorFires s msg).2 =
        (if s.isWatchHealthy then [Emission.unhealthy] else []) ++
          [.error (.watchError msg)] ∧
    (onWatcherErrorFires s msg).1.isWatchHealthy = false ∧
    (onWatcherErrorFires s msg).1.fallbackHandle = some s.nextId ∧
    (onWatcherErrorFires s msg).1.live.filter Timer.isFallback =
        [⟨s.nextId, TimerKind.fallbackInterval ut, 1000⟩] := by
  have g := reach_good s hr
  rw [onWatcherError_eq s msg ut h]
  refine ⟨rfl, rfl, rfl, ?_⟩
  cases hfb : s.fallbackHandle with
  | none =>
    show (s.live ++ ([⟨s.nextId, TimerKind.fallbackInterval ut, 1000⟩] : List Timer)).filter
      Timer.isFallback = _
    rw [List.filter_append, fb_live_empty s g hfb]
    rfl
  | some i =>
    have h2 := g.g_fb_live
    rw [hfb] at h2
    show (s.live.filter (fun t => t.tid ≠ i) ++
      ([⟨s.nextId, TimerKind.fallbackInterval ut, 1000⟩] : List Timer)).filter
        Timer.isFallback = _
    rw [List.filter_append, fbfilter_clear_self _ _ h2]
    rfl

theorem on_error_spec_witness :
    (onWatcherErrorFires sysB "watch refused").2 =
      [Emission.unhealthy, .error (.watchError "watch refused")] ∧
    (onWatcherErrorFires sysB "watch refused").1.fallbackHandle = some sysB.nextId :=
  ⟨(on_error_spec sysB "watch refused" 7 reach_sysB rfl).1,
    (on_error_spec sysB "watch refused" 7 reach_sysB rfl).2.2.1⟩

/-- C9: in every reachable state, the initialized flag implies a
registered watch session: every path that discards the session also
marks the monitor uninitialized, and the flag is only set while a
session handle is held. -/
theorem initialized_implies_watcher (s : Sys) (h : Reach s)
    (hi : s.initialized = true) : s.session ≠ none := by
  obtain ⟨ut, hs⟩ := (reach_good s h).g_init hi
  rw [hs]
  simp

theorem initialized_implies_watcher_witness :
    sysB.initialized = true ∧ sysB.session ≠ none :=
  ⟨rfl, initialized_implies_watcher sysB reach_sysB rfl⟩

end ConsulKv
